import Mathlib

/-!
# Verification of the humanrail-sdk resilience core

Shallow embedding of the SDK's retry executor, delay calculator, polling
waiter, webhook signature verifier/constructor, and idempotency-key helper,
followed by theorems settling the specification claims.

Strings are modelled as `List Char` (`Str`), bytes as `Nat` values kept
below 256 by construction, JavaScript numbers as `ℚ` (the arithmetic the
code performs on them is exact in this range), Go `int64`/`time.Duration`
as `ℤ`, and `Math.random()` / `rand.Float64()` as an explicit rational
parameter in `[0, 1)`.  Fallible operations return `Option`/`Except`.
-/

/-- Strings, modelled as lists of characters. -/
abbrev Str := List Char

/-! ## Basic string machinery: split, startsWith, decimal integers -/

/-- `s.split(c)` as in JavaScript / `strings.Split` in Go: splits at every
occurrence of `c`; the empty string yields `[""]`. -/
def splitOnC (c : Char) : Str → List Str
  | [] => [[]]
  | a :: rest =>
    if a = c then [] :: splitOnC c rest
    else
      match splitOnC c rest with
      | [] => [[a]]
      | p :: ps => (a :: p) :: ps

/-- `s.startsWith(p)` (first argument is the pattern `p`). -/
def strStarts : Str → Str → Bool
  | [], _ => true
  | _ :: _, [] => false
  | a :: p, b :: s => a == b && strStarts p s

/-- Decimal/hexadecimal digit characters, lowercase (as produced by
Node's `digest("hex")` and Go's `hex.EncodeToString`). -/
def hexDigitChar (d : Nat) : Char :=
  match d with
  | 0 => '0' | 1 => '1' | 2 => '2' | 3 => '3' | 4 => '4'
  | 5 => '5' | 6 => '6' | 7 => '7' | 8 => '8' | 9 => '9'
  | 10 => 'a' | 11 => 'b' | 12 => 'c' | 13 => 'd' | 14 => 'e'
  | 15 => 'f' | _ => '0'

/-- Numeric value of a decimal digit character (JS `charCode - 48`). -/
def digitVal (c : Char) : Nat := c.toNat - 48

/-- Is `c` a decimal digit? -/
def isDigitC (c : Char) : Bool :=
  c == '0' || c == '1' || c == '2' || c == '3' || c == '4' ||
  c == '5' || c == '6' || c == '7' || c == '8' || c == '9'

/-- Whitespace skipped by `Number.parseInt`: the ECMAScript TrimString
set, i.e. WhiteSpace (TAB, VT, FF, SP, NBSP, ZWNBSP/BOM and the Unicode
Space_Separator characters) together with the LineTerminator set
(LF, CR, LS, PS), written by code point. -/
def isWS (c : Char) : Bool :=
  let n := c.toNat
  (9 ≤ n && n ≤ 13) || n == 32 || n == 160 || n == 5760 ||
  (8192 ≤ n && n ≤ 8202) || n == 8232 || n == 8233 || n == 8239 ||
  n == 8287 || n == 12288 || n == 65279

/-- Value of a digit string read most-significant-first. -/
def jsDigitsVal (l : Str) : Nat := l.foldl (fun a c => 10 * a + digitVal c) 0

/-- Value of a digit string read least-significant-first (proof helper). -/
def revVal : Str → Nat
  | [] => 0
  | c :: r => digitVal c + 10 * revVal r

/-- Decimal digits of `n`, least significant first. -/
def natToRevDigChars (n : Nat) : Str :=
  if _h : n < 10 then [hexDigitChar n]
  else hexDigitChar (n % 10) :: natToRevDigChars (n / 10)
termination_by n
decreasing_by exact Nat.div_lt_self (by omega) (by omega)

/-- Decimal rendering of a natural number. -/
def natToString (n : Nat) : Str := (natToRevDigChars n).reverse

/-- Decimal rendering of an integer (JS `${n}` for an integral number,
Go `%d` / `strconv.FormatInt`). -/
def intToString (t : Int) : Str :=
  if t < 0 then '-' :: natToString t.natAbs else natToString t.natAbs

/-- Shared tail of `Number.parseInt`: longest digit suffix-prefix, `NaN`
(`none`) when there is no leading digit, trailing garbage ignored. -/
def jsParseIntCore (s : Str) (neg : Bool) : Option Int :=
  let ds := s.takeWhile isDigitC
  if ds = [] then none
  else some (if neg then -(jsDigitsVal ds : Int) else (jsDigitsVal ds : Int))

/-- `Number.parseInt(s, 10)`: skip leading whitespace, optional sign,
parse the longest prefix of decimal digits, ignore the rest. -/
def jsParseInt (s : Str) : Option Int :=
  match s.dropWhile isWS with
  | [] => jsParseIntCore [] false
  | c :: rest =>
    if c = '-' then jsParseIntCore rest true
    else if c = '+' then jsParseIntCore rest false
    else jsParseIntCore (c :: rest) false

/-- Go `strconv.ParseInt(s, 10, 64)`: optional sign, the whole remaining
string must be nonempty decimal digits, and the value must fit in int64. -/
def goParseInt64Core (ds : Str) (neg : Bool) : Option Int :=
  if ds = [] then none
  else if ds.all isDigitC then
    let v : Int := if neg then -(jsDigitsVal ds : Int) else (jsDigitsVal ds : Int)
    if -(2 ^ 63) ≤ v ∧ v < 2 ^ 63 then some v else none
  else none

/-- Go `strconv.ParseInt(s, 10, 64)`. -/
def goParseInt64 (s : Str) : Option Int :=
  match s with
  | [] => goParseInt64Core [] false
  | c :: rest =>
    if c = '-' then goParseInt64Core rest true
    else if c = '+' then goParseInt64Core rest false
    else goParseInt64Core (c :: rest) false

/-- A strict decimal-integer string: optional sign followed by one or more
digits and nothing else (the spec's notion of an "integer" timestamp). -/
def decimalIntegerStr (s : Str) : Bool :=
  match s with
  | '-' :: rest => rest ≠ [] && rest.all isDigitC
  | other => other ≠ [] && other.all isDigitC

/-! ## Hex encoding / decoding -/

/-- Hex value of a character, accepting both cases (as Node's
`Buffer.from(_, "hex")` and Go's `hex.DecodeString` do), computed from
the code point: digits sit at 48–57, lowercase at 97–102 (value =
code − 87), uppercase at 65–70 (value = code − 55). -/
def charHexVal? (c : Char) : Option Nat :=
  let n := c.toNat
  if 48 ≤ n ∧ n ≤ 57 then some (n - 48)
  else if 97 ≤ n ∧ n ≤ 102 then some (n - 87)
  else if 65 ≤ n ∧ n ≤ 70 then some (n - 55)
  else none

/-- Lowercase hex encoding of a byte list. -/
def hexEncode : List Nat → Str
  | [] => []
  | b :: r => hexDigitChar (b / 16) :: hexDigitChar (b % 16) :: hexEncode r

/-- Node `Buffer.from(s, "hex")`: decodes hex pairs greedily and stops
(without error) at the first invalid pair or lone trailing character. -/
def hexDecodeGreedy : Str → List Nat
  | c1 :: c2 :: r =>
    match charHexVal? c1, charHexVal? c2 with
    | some h, some l => (16 * h + l) :: hexDecodeGreedy r
    | _, _ => []
  | _ => []

/-- Go `hex.DecodeString`: fails on odd length or any invalid character. -/
def hexDecodeStrict : Str → Option (List Nat)
  | [] => some []
  | [_] => none
  | c1 :: c2 :: r =>
    match charHexVal? c1, charHexVal? c2 with
    | some h, some l =>
      match hexDecodeStrict r with
      | some bs => some ((16 * h + l) :: bs)
      | none => none
    | _, _ => none

/-! ## SHA-256 and HMAC-SHA256 (FIPS 180-4 / RFC 2104), over `Nat` bytes
with explicit reduction mod `2^32` -/

/-- Reduce to a 32-bit word. -/
def w32M (n : Nat) : Nat := n % 4294967296

/-- Rotate a 32-bit word right by `k` bits. -/
def rotr32 (x k : Nat) : Nat := w32M ((x >>> k) ||| (x <<< (32 - k)))

/-- Bitwise complement of a 32-bit word. -/
def not32 (x : Nat) : Nat := 4294967295 - w32M x

def ch32 (e f g : Nat) : Nat := (e &&& f) ^^^ (not32 e &&& g)

def maj32 (a b c : Nat) : Nat := (a &&& b) ^^^ (a &&& c) ^^^ (b &&& c)

def bSig0 (x : Nat) : Nat := rotr32 x 2 ^^^ rotr32 x 13 ^^^ rotr32 x 22

def bSig1 (x : Nat) : Nat := rotr32 x 6 ^^^ rotr32 x 11 ^^^ rotr32 x 25

def sSig0 (x : Nat) : Nat := rotr32 x 7 ^^^ rotr32 x 18 ^^^ (x >>> 3)

def sSig1 (x : Nat) : Nat := rotr32 x 17 ^^^ rotr32 x 19 ^^^ (x >>> 10)

/-- The SHA-256 working state: eight 32-bit words. -/
structure H8 where
  a : Nat
  b : Nat
  c : Nat
  d : Nat
  e : Nat
  f : Nat
  g : Nat
  h : Nat
deriving DecidableEq

/-- The SHA-256 initial state (the fractional parts of the square roots
of the first eight primes), written in decimal. -/
def h8Init : H8 :=
  ⟨1779033703, 3144134277, 1013904242, 2773480762,
   1359893119, 2600822924, 528734635, 1541459225⟩

/-- The 64 SHA-256 round constants (fractional parts of the cube roots
of the first 64 primes), written in decimal. -/
def kConst : List Nat :=
  [1116352408, 1899447441, 3049323471, 3921009573, 961987163,
   1508970993, 2453635748, 2870763221, 3624381080, 310598401,
   607225278, 1426881987, 1925078388, 2162078206, 2614888103,
   3248222580, 3835390401, 4022224774, 264347078, 604807628,
   770255983, 1249150122, 1555081692, 1996064986, 2554220882,
   2821834349, 2952996808, 3210313671, 3336571891, 3584528711,
   113926993, 338241895, 666307205, 773529912, 1294757372,
   1396182291, 1695183700, 1986661051, 2177026350, 2456956037,
   2730485921, 2820302411, 3259730800, 3345764771, 3516065817,
   3600352804, 4094571909, 275423344, 430227734, 506948616,
   659060556, 883997877, 958139571, 1322822218, 1537002063,
   1747873779, 1955562222, 2024104815, 2227730452, 2361852424,
   2428436474, 2756734187, 3204031479, 3329325298]

/-- Big-endian 4-byte groups to 32-bit words. -/
def bytesToWords : List Nat → List Nat
  | b0 :: b1 :: b2 :: b3 :: rest =>
    (((b0 * 256 + b1) * 256 + b2) * 256 + b3) :: bytesToWords rest
  | _ => []

/-- The next message-schedule word from the tail of the schedule so far. -/
def nextW (w : List Nat) : Nat :=
  let n := w.length
  w32M (sSig1 (w.getD (n - 2) 0) + w.getD (n - 7) 0 +
        sSig0 (w.getD (n - 15) 0) + w.getD (n - 16) 0)

/-- Extend the 16-word schedule by `k` further words. -/
def extendSchedule (w : List Nat) : Nat → List Nat
  | 0 => w
  | k + 1 => extendSchedule (w ++ [nextW w]) k

/-- One SHA-256 round over the working state. -/
def sha256Round (s : H8) (kw : Nat × Nat) : H8 :=
  let t1 := w32M (s.h + bSig1 s.e + ch32 s.e s.f s.g + kw.1 + kw.2)
  let t2 := w32M (bSig0 s.a + maj32 s.a s.b s.c)
  ⟨w32M (t1 + t2), s.a, s.b, s.c, w32M (s.d + t1), s.e, s.f, s.g⟩

/-- Compress one 64-byte block into the hash state. -/
def compressBlock (st : H8) (blockBytes : List Nat) : H8 :=
  let w := extendSchedule (bytesToWords blockBytes) 48
  let f := (kConst.zip w).foldl sha256Round st
  ⟨w32M (st.a + f.a), w32M (st.b + f.b), w32M (st.c + f.c), w32M (st.d + f.d),
   w32M (st.e + f.e), w32M (st.f + f.f), w32M (st.g + f.g), w32M (st.h + f.h)⟩

/-- Fold the compression function over all 64-byte blocks. -/
def sha256Chunks (st : H8) (bytes : List Nat) : H8 :=
  match bytes with
  | [] => st
  | b :: rest =>
    sha256Chunks (compressBlock st ((b :: rest).take 64)) ((b :: rest).drop 64)
termination_by bytes.length
decreasing_by simp [List.length_drop]; omega

/-- The message length in bits as 8 big-endian bytes. -/
def lenBytes8 (n : Nat) : List Nat :=
  [n / 2 ^ 56 % 256, n / 2 ^ 48 % 256, n / 2 ^ 40 % 256, n / 2 ^ 32 % 256,
   n / 2 ^ 24 % 256, n / 2 ^ 16 % 256, n / 2 ^ 8 % 256, n % 256]

/-- SHA-256 padding: `0x80`, zeros to 56 mod 64, then the bit length. -/
def sha256Pad (msg : List Nat) : List Nat :=
  msg ++ 128 :: (List.replicate ((64 - (msg.length + 9) % 64) % 64) 0 ++
    lenBytes8 (8 * msg.length))

/-- A 32-bit word as 4 big-endian bytes. -/
def wordBytesBE (w : Nat) : List Nat :=
  [w / 2 ^ 24 % 256, w / 2 ^ 16 % 256, w / 2 ^ 8 % 256, w % 256]

/-- SHA-256 of a byte list. -/
def sha256 (msg : List Nat) : List Nat :=
  let s := sha256Chunks h8Init (sha256Pad msg)
  wordBytesBE s.a ++ wordBytesBE s.b ++ wordBytesBE s.c ++ wordBytesBE s.d ++
  wordBytesBE s.e ++ wordBytesBE s.f ++ wordBytesBE s.g ++ wordBytesBE s.h

/-- HMAC-SHA256 (`createHmac("sha256", secret)` / `hmac.New(sha256.New, key)`). -/
def hmacSha256 (key msg : List Nat) : List Nat :=
  let k0 := if 64 < key.length then sha256 key else key
  let k1 := k0 ++ List.replicate (64 - k0.length) 0
  let ipadK := k1.map (fun b => b ^^^ 0x36)
  let opadK := k1.map (fun b => b ^^^ 0x5c)
  sha256 (opadK ++ sha256 (ipadK ++ msg))

/-- UTF-8 encoding of one character, written with base-64 digit
arithmetic: a continuation byte is `128 + digit`, and the leading byte
adds the 2-, 3- or 4-byte marker (192, 224, 240) to the top digit. -/
def utf8Char (c : Char) : List Nat :=
  let n := c.toNat
  if n < 128 then [n]
  else if n < 2048 then
    [192 + n / 64, 128 + n % 64]
  else if n < 65536 then
    [224 + n / 4096, 128 + n / 64 % 64, 128 + n % 64]
  else
    [240 + n / 262144, 128 + n / 4096 % 64, 128 + n / 64 % 64, 128 + n % 64]

/-- UTF-8 encoding of a string (what `update(string)` hashes in Node and
`[]byte(s)` yields in Go). -/
def utf8Encode : Str → List Nat
  | [] => []
  | c :: r => utf8Char c ++ utf8Encode r

/-! ## Webhook signature verification, TypeScript (`src/webhook.ts`) -/

namespace TS

/-- Header parsing as done inline by `verifyWebhookSignature`: split on
commas, find the first `t=` part and the first `v1=` part, strip the
prefixes, fail on a missing part or an empty remainder. -/
def parseHeader (signature : Str) : Option (Str × Str) :=
  let parts := splitOnC ',' signature
  match parts.find? (fun p => strStarts ('t' :: '=' :: []) p),
        parts.find? (fun p => strStarts ('v' :: '1' :: '=' :: []) p) with
  | some tp, some sp =>
    let timestamp := tp.drop 2
    let expectedSignature := sp.drop 3
    if timestamp = [] ∨ expectedSignature = [] then none
    else some (timestamp, expectedSignature)
  | _, _ => none

/-- `verifyWebhookSignature` from `src/typescript/src/webhook.ts`.
`tolerance` is the optional parameter (destructuring default 300);
`now` is `Math.floor(Date.now() / 1000)`.  Note that the tolerance
check `age > tolerance` is performed unconditionally, also when
`tolerance = 0`. -/
def verifyWebhookSignature (payload signature secret : Str)
    (tolerance : Option Int) (now : Int) : Bool :=
  let tol := tolerance.getD 300
  if payload = [] ∨ signature = [] ∨ secret = [] then false
  else
    match parseHeader signature with
    | none => false
    | some (timestamp, expectedSignature) =>
      match jsParseInt timestamp with
      | none => false
      | some timestampNum =>
        let age : Int := (now - timestampNum).natAbs
        if age > tol then false
        else
          let signedPayload := timestamp ++ '.' :: payload
          let computedHmac :=
            hexEncode (hmacSha256 (utf8Encode secret) (utf8Encode signedPayload))
          let a := hexDecodeGreedy computedHmac
          let b := hexDecodeGreedy expectedSignature
          if a.length ≠ b.length then false else a == b

/-- `constructWebhookSignature`: `timestamp` defaults to `now` when
omitted; renders `t=<ts>,v1=<hex-hmac>`. -/
def constructWebhookSignature (payload secret : Str)
    (timestamp : Option Int) (now : Int) : Str :=
  let ts := intToString (timestamp.getD now)
  let signedPayload := ts ++ '.' :: payload
  let hmacHex :=
    hexEncode (hmacSha256 (utf8Encode secret) (utf8Encode signedPayload))
  't' :: '=' :: ts ++ ',' :: 'v' :: '1' :: '=' :: hmacHex

end TS

/-! ## Webhook signature verification, Go (`escalation/webhook.go`) -/

namespace GoE

/-- Header parsing in the Go verifier: a loop over the comma-separated
parts in which a later `t=`/`v1=` part overwrites an earlier one. -/
def parseHeader (signature : Str) : Str × Str :=
  (splitOnC ',' signature).foldl
    (fun (acc : Str × Str) part =>
      if strStarts ('t' :: '=' :: []) part then (part.drop 2, acc.2)
      else if strStarts ('v' :: '1' :: '=' :: []) part then (acc.1, part.drop 3)
      else acc)
    ([], [])

/-- `VerifyWebhookSignature` from `src/go/escalation/webhook.go`.
`toleranceSec` models the `time.Duration` tolerance in whole seconds;
the freshness check only runs when `tolerance > 0`. -/
def verifyWebhookSignature (payload signature secret : Str)
    (toleranceSec : Int) (now : Int) : Bool :=
  if payload = [] ∨ signature = [] ∨ secret = [] then false
  else
    let ts := parseHeader signature
    let timestampStr := ts.1
    let expectedSig := ts.2
    if timestampStr = [] ∨ expectedSig = [] then false
    else
      match goParseInt64 timestampStr with
      | none => false
      | some timestampNum =>
        if 0 < toleranceSec ∧ ((now - timestampNum).natAbs : Int) > toleranceSec
        then false
        else
          let signedPayload := timestampStr ++ '.' :: payload
          let computedHMAC :=
            hexEncode (hmacSha256 (utf8Encode secret) (utf8Encode signedPayload))
          match hexDecodeStrict expectedSig with
          | none => false
          | some expectedBytes =>
            match hexDecodeStrict computedHMAC with
            | none => false
            | some computedBytes => computedBytes == expectedBytes

/-- `ConstructWebhookSignature`: a zero timestamp means "use the current
time"; renders `t=<ts>,v1=<hex-hmac>`. -/
def constructWebhookSignature (payload secret : Str)
    (timestamp : Int) (now : Int) : Str :=
  let tsv := if timestamp = 0 then now else timestamp
  let ts := intToString tsv
  let signedPayload := ts ++ '.' :: payload
  let hmacHex :=
    hexEncode (hmacSha256 (utf8Encode secret) (utf8Encode signedPayload))
  't' :: '=' :: ts ++ ',' :: 'v' :: '1' :: '=' :: hmacHex

end GoE

/-! ## Retry logic, shared enum -/

/-- The backoff strategies of both SDKs. -/
inductive BackoffStrategy where
  | exponential
  | linear
  | none
deriving DecidableEq

/-! ## Retry logic, TypeScript (`src/retry.ts`) -/

namespace TS

/-- `RetryConfig`: optional fields keep their `?? default` behavior.
`maxRetries` is taken to be a non-negative integer as the contract
requires. -/
structure RetryConfig where
  maxRetries : Nat
  backoff : BackoffStrategy
  baseDelayMs : Option ℚ := Option.none
  maxDelayMs : Option ℚ := Option.none

/-- `isRetryableStatusCode`. -/
def isRetryableStatusCode (statusCode : Nat) : Bool :=
  statusCode == 429 || (statusCode ≥ 500 && statusCode ≤ 599)

/-- `Math.round`: round half toward positive infinity. -/
def jsRound (x : ℚ) : ℤ := ⌊x + 1 / 2⌋

/-- The pre-jitter delay for a strategy (the `switch` in `calculateDelay`;
the `default` arm coincides with the exponential one). -/
def backoffBase (attempt : Nat) (strategy : BackoffStrategy) (baseDelayMs : ℚ) : ℚ :=
  match strategy with
  | .exponential => baseDelayMs * 2 ^ attempt
  | .linear => baseDelayMs * (attempt + 1)
  | .none => 0

/-- `delayMs + jitter` with `jitter = Math.random() * delayMs * 0.5`. -/
def jitteredDelay (delayMs rnd : ℚ) : ℚ := delayMs + rnd * delayMs * (1 / 2)

/-- `calculateDelay(attempt, config, retryAfterSeconds)`; `rnd` models the
`Math.random()` sample. -/
def calculateDelay (attempt : Nat) (config : RetryConfig)
    (retryAfterSeconds : Option ℚ) (rnd : ℚ) : ℚ :=
  let baseDelayMs := config.baseDelayMs.getD 1000
  let maxDelayMs := config.maxDelayMs.getD 30000
  match retryAfterSeconds with
  | some ra =>
    if 0 < ra then min (ra * 1000) maxDelayMs
    else
      match config.backoff with
      | .none => 0
      | s => (jsRound (min (jitteredDelay (backoffBase attempt s baseDelayMs) rnd) maxDelayMs) : ℚ)
  | _ =>
    match config.backoff with
    | .none => 0
    | s => (jsRound (min (jitteredDelay (backoffBase attempt s baseDelayMs) rnd) maxDelayMs) : ℚ)

/-- JavaScript `Error` values that flow through the executor. -/
structure JsErr where
  message : Str
deriving DecidableEq

/-- The fallback error thrown when no attempt error was recorded. -/
def reqFailedErr : JsErr := ⟨("Request failed after all retries").toList⟩

/-- `AttemptResult<T>` from `src/retry.ts`. -/
structure AttemptResult (α : Type) where
  response : Option α := Option.none
  statusCode : Option Nat := Option.none
  error : Option JsErr := Option.none
  retryAfterSeconds : Option ℚ := Option.none
  shouldRetry : Bool

/-- The `for` loop of `executeWithRetry`, with an attempt counter in the
result.  `fuel` is an upper bound on the remaining iterations; with
`fuel = maxRetries + 1` and `attempt = 0` it never runs out because the
loop exits at `attempt == maxRetries`, matching the unreachable
post-loop `throw` in the source. -/
def executeWithRetryAux {α : Type} (fn : Nat → AttemptResult α) (maxRetries : Nat) :
    Nat → Option JsErr → Nat → Except JsErr α × Nat
  | attempt, lastError, 0 => (.error (lastError.getD reqFailedErr), attempt)
  | attempt, lastError, fuel + 1 =>
    let r := fn attempt
    if r.shouldRetry = false ∨ attempt = maxRetries then
      (match r.response with
       | some v => .ok v
       | _ => .error ((r.error.or lastError).getD reqFailedErr), attempt + 1)
    else
      executeWithRetryAux fn maxRetries (attempt + 1) r.error fuel

/-- `executeWithRetry(fn, config)`, instrumented with the number of times
`fn` was invoked. -/
def executeWithRetry {α : Type} (fn : Nat → AttemptResult α)
    (config : RetryConfig) : Except JsErr α × Nat :=
  executeWithRetryAux fn config.maxRetries 0 Option.none (config.maxRetries + 1)

/-! ### Polling (`client.ts`, `TasksResource.waitForCompletion`) -/

/-- Task lifecycle statuses. -/
inductive TaskStatus where
  | posted
  | assigned
  | submitted
  | verified
  | failed
  | cancelled
  | expired
deriving DecidableEq

/-- Membership in the `terminalStatuses` set of `waitForCompletion`. -/
def isTerminalStatus (s : TaskStatus) : Bool :=
  match s with
  | .verified | .failed | .cancelled | .expired => true
  | _ => false

/-- The slice of a `Task` that `waitForCompletion` inspects and returns. -/
structure TaskM where
  id : Str
  status : TaskStatus
deriving DecidableEq

/-- The `TimeoutError` thrown by `waitForCompletion`: it carries a message
and the configured `timeoutMs`, and nothing else. -/
structure TimeoutErrM where
  message : Str
  timeoutMs : Nat
deriving DecidableEq

/-- Outcome of `waitForCompletion`. -/
inductive WaitResult where
  | completed (task : TaskM)
  | timedOut (e : TimeoutErrM)
deriving DecidableEq

/-- The message of the thrown `TimeoutError`. -/
def waitMessage (taskId : Str) (timeoutMs : Nat) : Str :=
  ("Task ").toList ++ taskId ++
  (" did not reach a terminal state within ").toList ++
  natToString timeoutMs ++ ("ms").toList

/-- The polling loop.  Time is modelled by `now` (elapsed ms since entry,
so the deadline is at `timeoutMs`): fetches are instantaneous and only
the `setTimeout(min(pollInterval, remaining))` sleeps advance the clock.
`fetch i` is the task returned by the `i`-th `get`.  `fuel` bounds the
iterations; running out yields the same `TimeoutError` the post-loop
`throw` produces. -/
def waitLoop (fetch : Nat → TaskM) (pollIntervalMs timeoutMs : Nat)
    (taskId : Str) : Nat → Nat → Nat → WaitResult
  | _, _, 0 => .timedOut ⟨waitMessage taskId timeoutMs, timeoutMs⟩
  | i, now, fuel + 1 =>
    if now < timeoutMs then
      let task := fetch i
      if isTerminalStatus task.status then .completed task
      else
        let remaining := timeoutMs - now
        if remaining = 0 then .timedOut ⟨waitMessage taskId timeoutMs, timeoutMs⟩
        else
          waitLoop fetch pollIntervalMs timeoutMs taskId
            (i + 1) (now + min pollIntervalMs remaining) fuel
    else .timedOut ⟨waitMessage taskId timeoutMs, timeoutMs⟩

/-- `waitForCompletion(taskId, options)` over a schedule of fetched tasks. -/
def waitForCompletion (fetch : Nat → TaskM) (pollIntervalMs timeoutMs : Nat)
    (taskId : Str) : WaitResult :=
  waitLoop fetch pollIntervalMs timeoutMs taskId 0 0 (timeoutMs + 1)

/-- Separator-joined concatenation (`Array.prototype.join(":")`). -/
def joinColon : List Str → Str
  | [] => []
  | [p] => p
  | p :: rest => p ++ ':' :: joinColon rest

/-- `generateIdempotencyKey(namespace, ...parts)` from `client.ts`:
`namespace + ":" + hex(SHA-256(parts.join(":"))).slice(0, 32)`. -/
def generateIdempotencyKey (ns : Str) (parts : List Str) : Str :=
  let input := joinColon parts
  let hash := (hexEncode (sha256 (utf8Encode input))).take 32
  ns ++ ':' :: hash

end TS

/-- The spec's key-derivation formula, written from its words:
`namespace + ":" + hex(SHA-256(join(parts, ":")))[:N]`. -/
def specIdempotencyKey (ns : Str) (parts : List Str) (n : Nat) : Str :=
  ns ++ ':' :: (hexEncode (sha256 (utf8Encode (TS.joinColon parts)))).take n

/-! ## Retry logic, Go (`escalation/types.go`) -/

/-- Truncation toward zero, as Go's float64-to-integer conversion does. -/
def truncQ (x : ℚ) : ℤ := if 0 ≤ x then ⌊x⌋ else ⌈x⌉

namespace GoE

/-- `RetryConfig` (durations as `ℤ`, matching `time.Duration`). -/
structure RetryConfig where
  maxRetries : Nat
  backoff : BackoffStrategy
  baseDelay : ℤ
  maxDelay : ℤ

/-- `isRetryableStatusCode` from `types.go`. -/
def isRetryableStatusCode (statusCode : Nat) : Bool :=
  statusCode == 429 || (statusCode ≥ 500 && statusCode ≤ 599)

/-- The pre-jitter backoff delay (the `switch` inside `calculateDelay`;
the `default` arm is the exponential one). -/
def backoffDelay (attempt : Nat) (config : RetryConfig) : ℤ :=
  match config.backoff with
  | .linear => config.baseDelay * (attempt + 1)
  | _ => config.baseDelay * 2 ^ attempt

/-- `delay + jitter` with `jitter = Duration(rand.Float64() * float64(delay) * 0.5)`
(the conversion to `Duration` truncates toward zero). -/
def goJittered (delay : ℤ) (rnd : ℚ) : ℤ :=
  delay + truncQ (rnd * (delay : ℚ) * (1 / 2))

/-- `calculateDelay(attempt, config, retryAfter)`; `rnd` models the
`rand.Float64()` sample.  A non-positive `retryAfter` means "no hint". -/
def calculateDelay (attempt : Nat) (config : RetryConfig)
    (retryAfter : ℤ) (rnd : ℚ) : ℤ :=
  if 0 < retryAfter then
    if config.maxDelay < retryAfter then config.maxDelay else retryAfter
  else if config.backoff = .none then 0
  else
    let delay2 := goJittered (backoffDelay attempt config) rnd
    if config.maxDelay < delay2 then config.maxDelay else delay2

/-- Go error values (including those produced by a cancelled context). -/
structure GoErr where
  msg : Str
deriving DecidableEq

/-- The quadruple returned by the function passed to `retryDo`. -/
structure FnResult where
  body : List Nat := []
  statusCode : Nat := 0
  retryAfter : ℤ := 0
  err : Option GoErr := Option.none

/-- The fallback for the unreachable post-loop `return nil, lastErr`. -/
def nilErr : GoErr := ⟨[]⟩

/-- The `for` loop of `retryDo`, instrumented with an attempt counter.
`ctx i` is the value of `ctx.Err()` at the checks that follow attempt
`i` (the no-status-code check and the sleep `select`); `rnd i` is the
jitter sample for the sleep after attempt `i`.  `fuel = maxRetries + 1`
never runs out because the loop exits at `attempt == maxRetries`. -/
def retryDoAux (ctx : Nat → Option GoErr) (config : RetryConfig)
    (rnd : Nat → ℚ) (fn : Nat → FnResult) :
    Nat → Option GoErr → Nat → Except GoErr (List Nat) × Nat
  | attempt, lastErr, 0 => (.error (lastErr.getD nilErr), attempt)
  | attempt, _, fuel + 1 =>
    let r := fn attempt
    match r.err with
    | Option.none => (.ok r.body, attempt + 1)
    | some e =>
      if 0 < r.statusCode ∧ isRetryableStatusCode r.statusCode = false then
        (.error e, attempt + 1)
      else if attempt = config.maxRetries then (.error e, attempt + 1)
      else if r.statusCode = 0 ∧ (ctx attempt).isSome then (.error e, attempt + 1)
      else
        let delay := calculateDelay attempt config r.retryAfter (rnd attempt)
        if 0 < delay then
          match ctx attempt with
          | some cerr => (.error cerr, attempt + 1)
          | Option.none => retryDoAux ctx config rnd fn (attempt + 1) (some e) fuel
        else retryDoAux ctx config rnd fn (attempt + 1) (some e) fuel

/-- `retryDo(ctx, config, fn)`, instrumented with the number of times
`fn` was invoked. -/
def retryDo (ctx : Nat → Option GoErr) (config : RetryConfig)
    (rnd : Nat → ℚ) (fn : Nat → FnResult) : Except GoErr (List Nat) × Nat :=
  retryDoAux ctx config rnd fn 0 Option.none (config.maxRetries + 1)

end GoE


/-! ## Concrete inputs used by counterexamples -/

/-- The non-integer timestamp string `1000.5`. -/
def c8TsStr : Str := '1' :: '0' :: '0' :: '0' :: '.' :: '5' :: []

/-- A fixed one-byte payload. -/
def cexPayload : Str := ['x']

/-- A fixed one-byte secret. -/
def cexSecret : Str := ['k']

/-- The hex digest that signs `"1000.5." + payload` with the secret. -/
def c8Digest : Str :=
  hexEncode (hmacSha256 (utf8Encode cexSecret)
    (utf8Encode (c8TsStr ++ '.' :: cexPayload)))

/-- A signature header whose `t=` part is the non-integer `1000.5` but
whose `v1=` digest is valid for the raw string the verifier re-signs. -/
def c8Header : Str :=
  't' :: '=' :: c8TsStr ++ ',' :: 'v' :: '1' :: '=' :: c8Digest

/-- A Go retry config with the library defaults. -/
def cfg1 : GoE.RetryConfig := ⟨3, .exponential, 1000, 30000⟩

/-- A context that never fires. -/
def ctxNone : Nat → Option GoE.GoErr := fun _ => Option.none

/-- A context that has already been cancelled at every check. -/
def ctxCancelled : Nat → Option GoE.GoErr := fun _ => some ⟨['c']⟩

/-- A zero jitter stream. -/
def rnd0 : Nat → ℚ := fun _ => 0

/-- A fixed attempt error. -/
def err1 : GoE.GoErr := ⟨['e']⟩

/-- An attempt that always fails with HTTP 404. -/
def fn404 : Nat → GoE.FnResult := fun _ => { statusCode := 404, err := some err1 }

/-- An attempt that always fails with HTTP 503. -/
def fn503 : Nat → GoE.FnResult := fun _ => { statusCode := 503, err := some err1 }

/-- An attempt that always fails at the transport level (no status). -/
def fnNet : Nat → GoE.FnResult := fun _ => { statusCode := 0, err := some err1 }

/-- A TypeScript attempt that is always retryable. -/
def tsFnRetry : Nat → TS.AttemptResult Nat :=
  fun _ => { shouldRetry := true, error := some ⟨['e']⟩ }

/-- A TypeScript attempt that asks to stop immediately. -/
def tsFnStop : Nat → TS.AttemptResult Nat :=
  fun _ => { shouldRetry := false, error := some ⟨['e']⟩ }

/-- A TypeScript retry config with both optional fields defaulted. -/
def tsCfg (mr : Nat) : TS.RetryConfig := ⟨mr, .exponential, Option.none, Option.none⟩

/-- The default-valued TypeScript config used in delay examples. -/
def tsCfgD : TS.RetryConfig := ⟨3, .exponential, Option.none, Option.none⟩

/-- A TypeScript config with `baseDelayMs = 0` (the boundary case). -/
def tsCfg0 : TS.RetryConfig := ⟨3, .exponential, some 0, some 30000⟩

/-- A fetch schedule that always reports the same status. -/
def fetchConst (st : TS.TaskStatus) : Nat → TS.TaskM := fun _ => ⟨['a'], st⟩

/-- The integer timestamp string `1000`. -/
def c8bTsStr : Str := '1' :: '0' :: '0' :: '0' :: []

/-- The correct 64-hex-character digest for `"1000." + payload`,
followed by two non-hex characters. -/
def c8bDigest : Str :=
  hexEncode (hmacSha256 (utf8Encode cexSecret)
    (utf8Encode (c8bTsStr ++ '.' :: cexPayload))) ++ 'g' :: 'g' :: []

/-- A signature header whose `v1=` digest is not hex (it ends in `gg`),
yet whose 64-hex-character prefix is the valid digest. -/
def c8bHeader : Str :=
  't' :: '=' :: c8bTsStr ++ ',' :: 'v' :: '1' :: '=' :: c8bDigest

/-! # Theorems -/

/-! ## String machinery -/

theorem splitOnC_ne_nil (c : Char) (s : Str) : splitOnC c s ≠ [] := by
  induction s with
  | nil => simp [splitOnC]
  | cons a rest ih =>
    simp only [splitOnC]
    split
    · simp
    · cases hsp : splitOnC c rest with
      | nil => simp
      | cons p ps => simp

theorem splitOnC_eq_single {c : Char} {s : Str} (h : ∀ x ∈ s, x ≠ c) :
    splitOnC c s = [s] := by
  induction s with
  | nil => rfl
  | cons a rest ih =>
    have ha : a ≠ c := h a (by simp)
    have hr := ih (fun x hx => h x (by simp [hx]))
    simp only [splitOnC, if_neg ha, hr]

theorem splitOnC_append {c : Char} {a b : Str} (h : ∀ x ∈ a, x ≠ c) :
    splitOnC c (a ++ c :: b) = a :: splitOnC c b := by
  induction a with
  | nil => simp [splitOnC]
  | cons x a2 ih =>
    have hx : x ≠ c := h x (by simp)
    have ih2 := ih (fun y hy => h y (by simp [hy]))
    simp only [List.cons_append, splitOnC, if_neg hx, List.append_eq, ih2]

/-! ## Digit characters and decimal strings -/

theorem digit_hexDigitChar :
    ∀ d < 10, isDigitC (hexDigitChar d) = true ∧ digitVal (hexDigitChar d) = d := by
  decide

theorem hexDigitChar_ne_comma (d : Nat) : hexDigitChar d ≠ ',' := by
  unfold hexDigitChar
  split <;> decide

theorem hexVal_hexDigitChar : ∀ d < 16, charHexVal? (hexDigitChar d) = some d := by
  decide

theorem isDigitC_cases {c : Char} (h : isDigitC c = true) :
    c = '0' ∨ c = '1' ∨ c = '2' ∨ c = '3' ∨ c = '4' ∨
    c = '5' ∨ c = '6' ∨ c = '7' ∨ c = '8' ∨ c = '9' := by
  have h2 := h
  simp [isDigitC] at h2
  tauto

theorem isDigitC_not_ws {c : Char} (h : isDigitC c = true) : isWS c = false := by
  rcases isDigitC_cases h with h|h|h|h|h|h|h|h|h|h <;> subst h <;> decide

theorem isDigitC_ne_comma {c : Char} (h : isDigitC c = true) : c ≠ ',' := by
  rcases isDigitC_cases h with h|h|h|h|h|h|h|h|h|h <;> subst h <;> decide

theorem isDigitC_ne_minus {c : Char} (h : isDigitC c = true) : c ≠ '-' := by
  rcases isDigitC_cases h with h|h|h|h|h|h|h|h|h|h <;> subst h <;> decide

theorem isDigitC_ne_plus {c : Char} (h : isDigitC c = true) : c ≠ '+' := by
  rcases isDigitC_cases h with h|h|h|h|h|h|h|h|h|h <;> subst h <;> decide

theorem natToRevDigChars_ne_nil (n : Nat) : natToRevDigChars n ≠ [] := by
  unfold natToRevDigChars
  split <;> simp

theorem natToRevDigChars_digits (n : Nat) :
    ∀ c ∈ natToRevDigChars n, isDigitC c = true := by
  induction n using natToRevDigChars.induct with
  | case1 n h =>
    intro c hc
    rw [natToRevDigChars, dif_pos h] at hc
    simp at hc
    subst hc
    exact (digit_hexDigitChar n h).1
  | case2 n h ih =>
    intro c hc
    rw [natToRevDigChars, dif_neg h] at hc
    rcases List.mem_cons.mp hc with hc | hc
    · subst hc
      exact (digit_hexDigitChar (n % 10) (Nat.mod_lt _ (by omega))).1
    · exact ih c hc

theorem revVal_natToRevDigChars (n : Nat) :
    revVal (natToRevDigChars n) = n := by
  induction n using natToRevDigChars.induct with
  | case1 n h =>
    rw [natToRevDigChars, dif_pos h]
    simp [revVal, (digit_hexDigitChar n h).2]
  | case2 n h ih =>
    rw [natToRevDigChars, dif_neg h]
    simp only [revVal, ih, (digit_hexDigitChar (n % 10) (Nat.mod_lt _ (by omega))).2]
    omega

theorem jsDigitsVal_reverse (l : Str) : jsDigitsVal l.reverse = revVal l := by
  induction l with
  | nil => rfl
  | cons c r ih =>
    simp only [jsDigitsVal, List.reverse_cons, List.foldl_append, List.foldl_cons,
      List.foldl_nil, revVal]
    simp only [jsDigitsVal] at ih
    rw [ih]
    omega

theorem jsDigitsVal_natToString (n : Nat) : jsDigitsVal (natToString n) = n := by
  rw [natToString, jsDigitsVal_reverse, revVal_natToRevDigChars]

theorem natToString_ne_nil (n : Nat) : natToString n ≠ [] := by
  simp [natToString, natToRevDigChars_ne_nil n]

theorem natToString_digits (n : Nat) :
    ∀ c ∈ natToString n, isDigitC c = true := by
  intro c hc
  exact natToRevDigChars_digits n c (List.mem_reverse.mp hc)

theorem intToString_ne_nil (t : Int) : intToString t ≠ [] := by
  unfold intToString
  split
  · simp
  · exact natToString_ne_nil _

theorem intToString_ne_comma (t : Int) : ∀ c ∈ intToString t, c ≠ ',' := by
  intro c hc
  unfold intToString at hc
  split at hc
  · rcases List.mem_cons.mp hc with hc | hc
    · subst hc; decide
    · exact isDigitC_ne_comma (natToString_digits _ c hc)
  · exact isDigitC_ne_comma (natToString_digits _ c hc)

theorem dropWhile_ws_digits {l : Str} (h : ∀ c ∈ l, isDigitC c = true) :
    l.dropWhile isWS = l := by
  cases l with
  | nil => rfl
  | cons c r =>
    rw [List.dropWhile_cons_of_neg]
    simp [isDigitC_not_ws (h c (by simp))]

theorem takeWhile_digits {l : Str} (h : ∀ c ∈ l, isDigitC c = true) :
    l.takeWhile isDigitC = l := by
  induction l with
  | nil => rfl
  | cons c r ih =>
    rw [List.takeWhile_cons_of_pos (h c (by simp))]
    rw [ih (fun x hx => h x (by simp [hx]))]

theorem jsParseIntCore_digits {l : Str} (hne : l ≠ [])
    (h : ∀ c ∈ l, isDigitC c = true) (neg : Bool) :
    jsParseIntCore l neg =
      some (if neg then -(jsDigitsVal l : Int) else (jsDigitsVal l : Int)) := by
  simp only [jsParseIntCore, takeWhile_digits h, if_neg hne]

theorem jsParseInt_intToString (t : Int) : jsParseInt (intToString t) = some t := by
  rcases lt_or_le t 0 with ht | ht
  · have hd := natToString_digits t.natAbs
    have hv : (t.natAbs : Int) = -t := by omega
    rw [intToString, if_pos ht, jsParseInt, List.dropWhile_cons_of_neg (by decide)]
    show (if '-' = '-' then jsParseIntCore (natToString t.natAbs) true
      else if '-' = '+' then jsParseIntCore (natToString t.natAbs) false
      else jsParseIntCore ('-' :: natToString t.natAbs) false) = some t
    rw [if_pos rfl, jsParseIntCore_digits (natToString_ne_nil _) hd true]
    simp [jsDigitsVal_natToString, hv]
  · have hd := natToString_digits t.natAbs
    have hv : (t.natAbs : Int) = t := by omega
    rw [intToString, if_neg (by omega), jsParseInt, dropWhile_ws_digits hd]
    obtain ⟨c, r, hcr⟩ := List.exists_cons_of_ne_nil (natToString_ne_nil t.natAbs)
    rw [hcr]
    show (if c = '-' then jsParseIntCore r true
      else if c = '+' then jsParseIntCore r false
      else jsParseIntCore (c :: r) false) = some t
    have hc : isDigitC c = true := hd c (by rw [hcr]; simp)
    rw [if_neg (isDigitC_ne_minus hc), if_neg (isDigitC_ne_plus hc), ← hcr,
      jsParseIntCore_digits (natToString_ne_nil _) hd false]
    simp [jsDigitsVal_natToString, hv]

theorem goParseInt64Core_digits {l : Str} (hne : l ≠ [])
    (h : ∀ c ∈ l, isDigitC c = true) (neg : Bool)
    (hr : -(2 ^ 63) ≤ (if neg then -(jsDigitsVal l : Int) else (jsDigitsVal l : Int)) ∧
      (if neg then -(jsDigitsVal l : Int) else (jsDigitsVal l : Int)) < 2 ^ 63) :
    goParseInt64Core l neg =
      some (if neg then -(jsDigitsVal l : Int) else (jsDigitsVal l : Int)) := by
  rw [goParseInt64Core, if_neg hne, if_pos (List.all_eq_true.mpr h)]
  simp only [if_pos hr]

theorem goParseInt64_intToString (t : Int)
    (h1 : -(2 ^ 63) ≤ t) (h2 : t < 2 ^ 63) :
    goParseInt64 (intToString t) = some t := by
  rcases lt_or_le t 0 with ht | ht
  · have hd := natToString_digits t.natAbs
    have hv : (t.natAbs : Int) = -t := by omega
    rw [intToString, if_pos ht, goParseInt64]
    show (if '-' = '-' then goParseInt64Core (natToString t.natAbs) true
      else if '-' = '+' then goParseInt64Core (natToString t.natAbs) false
      else goParseInt64Core ('-' :: natToString t.natAbs) false) = some t
    rw [if_pos rfl, goParseInt64Core_digits (natToString_ne_nil _) hd true
      (by simp [jsDigitsVal_natToString, hv]; omega)]
    simp [jsDigitsVal_natToString, hv]
  · have hd := natToString_digits t.natAbs
    have hv : (t.natAbs : Int) = t := by omega
    rw [intToString, if_neg (by omega)]
    obtain ⟨c, r, hcr⟩ := List.exists_cons_of_ne_nil (natToString_ne_nil t.natAbs)
    rw [hcr, goParseInt64]
    show (if c = '-' then goParseInt64Core r true
      else if c = '+' then goParseInt64Core r false
      else goParseInt64Core (c :: r) false) = some t
    have hc : isDigitC c = true := hd c (by rw [hcr]; simp)
    rw [if_neg (isDigitC_ne_minus hc), if_neg (isDigitC_ne_plus hc), ← hcr,
      goParseInt64Core_digits (natToString_ne_nil _) hd false
        (by simp [jsDigitsVal_natToString, hv]; omega)]
    simp [jsDigitsVal_natToString, hv]

/-! ## Hex lemmas -/

theorem hexEncode_length (bs : List Nat) : (hexEncode bs).length = 2 * bs.length := by
  induction bs with
  | nil => rfl
  | cons b r ih => simp [hexEncode, ih]; omega

theorem hexEncode_ne_comma (bs : List Nat) : ∀ c ∈ hexEncode bs, c ≠ ',' := by
  induction bs with
  | nil => simp [hexEncode]
  | cons b r ih =>
    intro c hc
    simp only [hexEncode, List.mem_cons] at hc
    rcases hc with rfl | rfl | hc
    · exact hexDigitChar_ne_comma _
    · exact hexDigitChar_ne_comma _
    · exact ih c hc

theorem hexDecodeGreedy_encode_append (bs : List Nat) (rest : Str)
    (h : ∀ b ∈ bs, b < 256) :
    hexDecodeGreedy (hexEncode bs ++ rest) = bs ++ hexDecodeGreedy rest := by
  induction bs with
  | nil => rfl
  | cons b r ih =>
    have hb : b < 256 := h b (by simp)
    have h1 : b / 16 < 16 := by omega
    have h2 : b % 16 < 16 := by omega
    simp only [hexEncode, List.cons_append, hexDecodeGreedy,
      hexVal_hexDigitChar _ h1, hexVal_hexDigitChar _ h2, List.append_eq]
    rw [ih (fun x hx => h x (by simp [hx]))]
    have : 16 * (b / 16) + b % 16 = b := by omega
    simp [this]

theorem hexDecodeGreedy_encode (bs : List Nat) (h : ∀ b ∈ bs, b < 256) :
    hexDecodeGreedy (hexEncode bs) = bs := by
  have := hexDecodeGreedy_encode_append bs [] h
  simpa [hexDecodeGreedy] using this

theorem hexDecodeStrict_encode (bs : List Nat) (h : ∀ b ∈ bs, b < 256) :
    hexDecodeStrict (hexEncode bs) = some bs := by
  induction bs with
  | nil => rfl
  | cons b r ih =>
    have hb : b < 256 := h b (by simp)
    have h1 : b / 16 < 16 := by omega
    have h2 : b % 16 < 16 := by omega
    have hbe : 16 * (b / 16) + b % 16 = b := by omega
    simp only [hexEncode, hexDecodeStrict,
      hexVal_hexDigitChar _ h1, hexVal_hexDigitChar _ h2,
      ih (fun x hx => h x (by simp [hx]))]
    simp [hbe]

/-! ## SHA-256 / HMAC output shape -/

theorem wordBytesBE_lt (w : Nat) : ∀ b ∈ wordBytesBE w, b < 256 := by
  intro b hb
  simp only [wordBytesBE, List.mem_cons, List.not_mem_nil, or_false] at hb
  rcases hb with rfl | rfl | rfl | rfl <;> exact Nat.mod_lt _ (by omega)

theorem sha256_length (m : List Nat) : (sha256 m).length = 32 := by
  simp [sha256, wordBytesBE]

theorem sha256_lt (m : List Nat) : ∀ b ∈ sha256 m, b < 256 := by
  intro b hb
  simp only [sha256, List.mem_append] at hb
  rcases hb with ((((((h | h) | h) | h) | h) | h) | h) | h <;>
    exact wordBytesBE_lt _ b h

theorem hmacSha256_length (key msg : List Nat) :
    (hmacSha256 key msg).length = 32 := by
  rw [hmacSha256]
  exact sha256_length _

theorem hmacSha256_lt (key msg : List Nat) : ∀ b ∈ hmacSha256 key msg, b < 256 := by
  rw [hmacSha256]
  exact sha256_lt _

theorem hmacSha256_ne_nil (key msg : List Nat) : hmacSha256 key msg ≠ [] := by
  intro h
  have := hmacSha256_length key msg
  rw [h] at this
  simp at this

theorem hexEncode_hmac_ne_nil (key msg : List Nat) :
    hexEncode (hmacSha256 key msg) ≠ [] := by
  intro h
  have h2 := hexEncode_length (hmacSha256 key msg)
  rw [h, hmacSha256_length] at h2
  simp at h2

/-! ## Header parsing round trips -/

theorem header_split (ts rest : Str) (hcomma : ∀ c ∈ ts, c ≠ ',')
    (hrest : ∀ c ∈ rest, c ≠ ',') :
    splitOnC ',' ('t' :: '=' :: ts ++ ',' :: 'v' :: '1' :: '=' :: rest) =
      ('t' :: '=' :: ts) :: [('v' :: '1' :: '=' :: rest)] := by
  have h1 : ∀ x ∈ 't' :: '=' :: ts, x ≠ ',' := by
    intro x hx
    rcases List.mem_cons.mp hx with rfl | hx
    · decide
    rcases List.mem_cons.mp hx with rfl | hx
    · decide
    exact hcomma x hx
  have h2 : ∀ x ∈ 'v' :: '1' :: '=' :: rest, x ≠ ',' := by
    intro x hx
    rcases List.mem_cons.mp hx with rfl | hx
    · decide
    rcases List.mem_cons.mp hx with rfl | hx
    · decide
    rcases List.mem_cons.mp hx with rfl | hx
    · decide
    exact hrest x hx
  rw [splitOnC_append h1, splitOnC_eq_single h2]

theorem ts_parseHeader_generic (ts hex : Str) (hts : ts ≠ []) (hhex : hex ≠ [])
    (hcomma : ∀ c ∈ ts, c ≠ ',') (hhexc : ∀ c ∈ hex, c ≠ ',') :
    TS.parseHeader ('t' :: '=' :: ts ++ ',' :: 'v' :: '1' :: '=' :: hex) =
      some (ts, hex) := by
  have hsw1 : strStarts ('t' :: '=' :: []) ('t' :: '=' :: ts) = true := by
    simp [strStarts]
  have hsw2 : strStarts ('v' :: '1' :: '=' :: []) ('t' :: '=' :: ts) = false := by
    simp [strStarts, show ('v' == 't') = false from by decide]
  have hsw3 : strStarts ('v' :: '1' :: '=' :: []) ('v' :: '1' :: '=' :: hex) = true := by
    simp [strStarts]
  rw [TS.parseHeader, header_split ts hex hcomma hhexc]
  simp only [List.find?, hsw1, hsw2, hsw3, cond_true, cond_false]
  simp only [List.drop_succ_cons, List.drop_zero]
  rw [if_neg (by simp [hts, hhex])]

theorem go_parseHeader_generic (ts hex : Str)
    (hcomma : ∀ c ∈ ts, c ≠ ',') (hhexc : ∀ c ∈ hex, c ≠ ',') :
    GoE.parseHeader ('t' :: '=' :: ts ++ ',' :: 'v' :: '1' :: '=' :: hex) =
      (ts, hex) := by
  have hsw1 : strStarts ('t' :: '=' :: []) ('t' :: '=' :: ts) = true := by
    simp [strStarts]
  have hsw2 : strStarts ('v' :: '1' :: '=' :: []) ('v' :: '1' :: '=' :: hex) = true := by
    simp [strStarts]
  have hsw4 : strStarts ('t' :: '=' :: []) ('v' :: '1' :: '=' :: hex) = false := by
    simp [strStarts, show ('t' == 'v') = false from by decide]
  rw [GoE.parseHeader, header_split ts hex hcomma hhexc]
  simp only [List.foldl_cons, List.foldl_nil, hsw1, hsw2, hsw4,
    if_true, if_false, Bool.false_eq_true]
  simp only [List.drop_succ_cons, List.drop_zero]

/-! ## Verifier behavior on well-formed headers -/

theorem ts_verify_valid_header (p s ts : Str) (tnum tol now : Int)
    (hp : p ≠ []) (hs : s ≠ []) (hts : ts ≠ [])
    (hcomma : ∀ c ∈ ts, c ≠ ',') (hparse : jsParseInt ts = some tnum) :
    TS.verifyWebhookSignature p
      ('t' :: '=' :: ts ++ ',' :: 'v' :: '1' :: '=' ::
        hexEncode (hmacSha256 (utf8Encode s) (utf8Encode (ts ++ '.' :: p))))
      s (some tol) now
      = decide (((now - tnum).natAbs : Int) ≤ tol) := by
  have hhexne := hexEncode_hmac_ne_nil (utf8Encode s) (utf8Encode (ts ++ '.' :: p))
  have hhexc := hexEncode_ne_comma (hmacSha256 (utf8Encode s) (utf8Encode (ts ++ '.' :: p)))
  rw [TS.verifyWebhookSignature]
  rw [if_neg (by simp [hp, hs])]
  rw [ts_parseHeader_generic ts _ hts hhexne hcomma hhexc]
  simp only [Option.getD_some, hparse]
  rcases le_or_lt ((now - tnum).natAbs : Int) tol with hfresh | hfresh
  · rw [if_neg (not_lt.mpr hfresh)]
    rw [hexDecodeGreedy_encode _ (hmacSha256_lt _ _)]
    rw [if_neg (by simp)]
    simp only [beq_self_eq_true]
    symm
    rw [decide_eq_true_eq]
    exact hfresh
  · rw [if_pos hfresh]
    symm
    rw [decide_eq_false_iff_not]
    omega

theorem go_verify_valid_header (p s ts : Str) (tnum tol now : Int)
    (hp : p ≠ []) (hs : s ≠ []) (hts : ts ≠ [])
    (hcomma : ∀ c ∈ ts, c ≠ ',') (hparse : goParseInt64 ts = some tnum) :
    GoE.verifyWebhookSignature p
      ('t' :: '=' :: ts ++ ',' :: 'v' :: '1' :: '=' ::
        hexEncode (hmacSha256 (utf8Encode s) (utf8Encode (ts ++ '.' :: p))))
      s tol now
      = decide (¬(0 < tol ∧ ((now - tnum).natAbs : Int) > tol)) := by
  have hhexne := hexEncode_hmac_ne_nil (utf8Encode s) (utf8Encode (ts ++ '.' :: p))
  have hhexc := hexEncode_ne_comma (hmacSha256 (utf8Encode s) (utf8Encode (ts ++ '.' :: p)))
  rw [GoE.verifyWebhookSignature]
  rw [if_neg (by simp [hp, hs])]
  rw [go_parseHeader_generic ts _ hcomma hhexc]
  simp only [hparse]
  rw [if_neg (by simp [hts, hhexne])]
  by_cases hstale : 0 < tol ∧ ((now - tnum).natAbs : Int) > tol
  · rw [if_pos hstale]
    symm
    rw [decide_eq_false_iff_not]
    exact not_not_intro hstale
  · rw [if_neg hstale]
    rw [hexDecodeStrict_encode _ (hmacSha256_lt _ _)]
    simp only [beq_self_eq_true]
    symm
    rw [decide_eq_true_eq]
    exact hstale

theorem ts_construct_eq (p s : Str) (t now2 : Int) :
    TS.constructWebhookSignature p s (some t) now2 =
      't' :: '=' :: intToString t ++ ',' :: 'v' :: '1' :: '=' ::
        hexEncode (hmacSha256 (utf8Encode s)
          (utf8Encode (intToString t ++ '.' :: p))) := rfl

theorem go_construct_eq (p s : Str) (t now2 : Int) (ht : t ≠ 0) :
    GoE.constructWebhookSignature p s t now2 =
      't' :: '=' :: intToString t ++ ',' :: 'v' :: '1' :: '=' ::
        hexEncode (hmacSha256 (utf8Encode s)
          (utf8Encode (intToString t ++ '.' :: p))) := by
  rw [GoE.constructWebhookSignature]
  rw [if_neg ht]

theorem ts_verify_construct (p s : Str) (t tol now now2 : Int)
    (hp : p ≠ []) (hs : s ≠ []) :
    TS.verifyWebhookSignature p (TS.constructWebhookSignature p s (some t) now2)
      s (some tol) now = decide (((now - t).natAbs : Int) ≤ tol) := by
  rw [ts_construct_eq]
  exact ts_verify_valid_header p s (intToString t) t tol now hp hs
    (intToString_ne_nil t) (intToString_ne_comma t) (jsParseInt_intToString t)

theorem go_verify_construct (p s : Str) (t tol now now2 : Int)
    (hp : p ≠ []) (hs : s ≠ []) (ht : t ≠ 0)
    (h1 : -(2 ^ 63) ≤ t) (h2 : t < 2 ^ 63) :
    GoE.verifyWebhookSignature p (GoE.constructWebhookSignature p s t now2)
      s tol now = decide (¬(0 < tol ∧ ((now - t).natAbs : Int) > tol)) := by
  rw [go_construct_eq p s t now2 ht]
  exact go_verify_valid_header p s (intToString t) t tol now hp hs
    (intToString_ne_nil t) (intToString_ne_comma t)
    (goParseInt64_intToString t h1 h2)

/-! ## Retry executor: attempt counts (TypeScript) -/

theorem ewrAux_count_le {α : Type} (fn : Nat → TS.AttemptResult α) (mr : Nat) :
    ∀ fuel attempt le,
      (TS.executeWithRetryAux fn mr attempt le fuel).2 ≤ attempt + fuel := by
  intro fuel
  induction fuel with
  | zero => intro attempt le; simp [TS.executeWithRetryAux]
  | succ f ih =>
    intro attempt le
    rw [TS.executeWithRetryAux]
    split
    · simp
    · have := ih (attempt + 1) (fn attempt).error
      omega

theorem ewrAux_count_exact {α : Type} (fn : Nat → TS.AttemptResult α) (mr : Nat)
    (h : ∀ i, (fn i).shouldRetry = true) :
    ∀ fuel attempt le, attempt + fuel = mr + 1 →
      (TS.executeWithRetryAux fn mr attempt le fuel).2 = mr + 1 := by
  intro fuel
  induction fuel with
  | zero => intro attempt le hsum; simp [TS.executeWithRetryAux]; omega
  | succ f ih =>
    intro attempt le hsum
    rw [TS.executeWithRetryAux]
    by_cases hend : attempt = mr
    · rw [if_pos (Or.inr hend)]
      simp [hend]
    · rw [if_neg (by simp [h attempt, hend])]
      exact ih (attempt + 1) (fn attempt).error (by omega)

theorem executeWithRetry_count_le {α : Type} (fn : Nat → TS.AttemptResult α)
    (config : TS.RetryConfig) :
    (TS.executeWithRetry fn config).2 ≤ config.maxRetries + 1 := by
  have := ewrAux_count_le fn config.maxRetries (config.maxRetries + 1) 0 Option.none
  simpa [TS.executeWithRetry] using this

theorem executeWithRetry_count_exact {α : Type} (fn : Nat → TS.AttemptResult α)
    (config : TS.RetryConfig) (h : ∀ i, (fn i).shouldRetry = true) :
    (TS.executeWithRetry fn config).2 = config.maxRetries + 1 := by
  exact ewrAux_count_exact fn config.maxRetries h (config.maxRetries + 1) 0
    Option.none (by omega)

theorem executeWithRetry_zero {α : Type} (fn : Nat → TS.AttemptResult α)
    (config : TS.RetryConfig) (h : config.maxRetries = 0) :
    (TS.executeWithRetry fn config).2 = 1 := by
  rw [TS.executeWithRetry, h, TS.executeWithRetryAux]
  rw [if_pos (Or.inr rfl)]

theorem executeWithRetry_stop {α : Type} (fn : Nat → TS.AttemptResult α)
    (config : TS.RetryConfig) (h : (fn 0).shouldRetry = false) :
    (TS.executeWithRetry fn config).2 = 1 := by
  rw [TS.executeWithRetry, TS.executeWithRetryAux]
  rw [if_pos (Or.inl h)]

/-! ## Retry executor: attempt counts and classification (Go) -/

theorem retryDoAux_count_le (ctx : Nat → Option GoE.GoErr) (config : GoE.RetryConfig)
    (rnd : Nat → ℚ) (fn : Nat → GoE.FnResult) :
    ∀ fuel attempt le,
      (GoE.retryDoAux ctx config rnd fn attempt le fuel).2 ≤ attempt + fuel := by
  intro fuel
  induction fuel with
  | zero => intro attempt le; simp [GoE.retryDoAux]
  | succ f ih =>
    intro attempt le
    rw [GoE.retryDoAux]
    cases (fn attempt).err with
    | none => simp
    | some e =>
      simp only []
      split
      · simp
      · split
        · simp
        · split
          · simp
          · split
            · split
              · simp
              · have := ih (attempt + 1) (some e)
                omega
            · have := ih (attempt + 1) (some e)
              omega

theorem retryDoAux_count_ge (ctx : Nat → Option GoE.GoErr) (config : GoE.RetryConfig)
    (rnd : Nat → ℚ) (fn : Nat → GoE.FnResult) :
    ∀ fuel attempt le, 1 ≤ fuel →
      attempt + 1 ≤ (GoE.retryDoAux ctx config rnd fn attempt le fuel).2 := by
  intro fuel
  induction fuel with
  | zero => intro attempt le h; omega
  | succ f ih =>
    intro attempt le _
    rw [GoE.retryDoAux]
    cases (fn attempt).err with
    | none => simp
    | some e =>
      simp only []
      split
      · simp
      · split
        · simp
        · split
          · simp
          · split
            · split
              · simp
              · rcases Nat.eq_zero_or_pos f with hf | hf
                · subst hf; simp [GoE.retryDoAux]
                · have := ih (attempt + 1) (some e) hf
                  omega
            · rcases Nat.eq_zero_or_pos f with hf | hf
              · subst hf; simp [GoE.retryDoAux]
              · have := ih (attempt + 1) (some e) hf
                omega

theorem retryDoAux_count_exact (ctx : Nat → Option GoE.GoErr) (config : GoE.RetryConfig)
    (rnd : Nat → ℚ) (fn : Nat → GoE.FnResult)
    (h : ∀ i, (fn i).err.isSome ∧ ctx i = Option.none ∧
      ((fn i).statusCode = 0 ∨ GoE.isRetryableStatusCode (fn i).statusCode = true)) :
    ∀ fuel attempt le, attempt + fuel = config.maxRetries + 1 →
      (GoE.retryDoAux ctx config rnd fn attempt le fuel).2 = config.maxRetries + 1 := by
  intro fuel
  induction fuel with
  | zero => intro attempt le hsum; simp [GoE.retryDoAux]; omega
  | succ f ih =>
    intro attempt le hsum
    obtain ⟨herr, hctx, hclass⟩ := h attempt
    obtain ⟨e, he⟩ := Option.isSome_iff_exists.mp herr
    rw [GoE.retryDoAux]
    rw [he]
    simp only []
    rw [if_neg (by
      rcases hclass with hc | hc
      · simp [hc]
      · simp [hc])]
    by_cases hend : attempt = config.maxRetries
    · rw [if_pos hend]
      simp [hend]
    · rw [if_neg hend]
      rw [if_neg (by simp [hctx])]
      rw [hctx]
      split
      · exact ih (attempt + 1) (some e) (by omega)
      · exact ih (attempt + 1) (some e) (by omega)

theorem retryDo_count_le (ctx : Nat → Option GoE.GoErr) (config : GoE.RetryConfig)
    (rnd : Nat → ℚ) (fn : Nat → GoE.FnResult) :
    (GoE.retryDo ctx config rnd fn).2 ≤ config.maxRetries + 1 := by
  have := retryDoAux_count_le ctx config rnd fn (config.maxRetries + 1) 0 Option.none
  simpa [GoE.retryDo] using this

theorem retryDo_count_exact (ctx : Nat → Option GoE.GoErr) (config : GoE.RetryConfig)
    (rnd : Nat → ℚ) (fn : Nat → GoE.FnResult)
    (h : ∀ i, (fn i).err.isSome ∧ ctx i = Option.none ∧
      ((fn i).statusCode = 0 ∨ GoE.isRetryableStatusCode (fn i).statusCode = true)) :
    (GoE.retryDo ctx config rnd fn).2 = config.maxRetries + 1 :=
  retryDoAux_count_exact ctx config rnd fn h (config.maxRetries + 1) 0 Option.none
    (by omega)

theorem retryDo_zero (ctx : Nat → Option GoE.GoErr) (config : GoE.RetryConfig)
    (rnd : Nat → ℚ) (fn : Nat → GoE.FnResult) (h : config.maxRetries = 0) :
    (GoE.retryDo ctx config rnd fn).2 = 1 := by
  rw [GoE.retryDo, h, GoE.retryDoAux]
  cases (fn 0).err with
  | none => simp
  | some e =>
    simp only []
    split
    · simp
    · rw [if_pos h.symm]

theorem retryDo_terminal (ctx : Nat → Option GoE.GoErr) (config : GoE.RetryConfig)
    (rnd : Nat → ℚ) (fn : Nat → GoE.FnResult) (e : GoE.GoErr)
    (he : (fn 0).err = some e) (hs : 0 < (fn 0).statusCode)
    (hnr : GoE.isRetryableStatusCode (fn 0).statusCode = false) :
    GoE.retryDo ctx config rnd fn = (.error e, 1) := by
  rw [GoE.retryDo, GoE.retryDoAux, he]
  simp only []
  rw [if_pos ⟨hs, hnr⟩]

theorem retryDo_transport_cancelled (ctx : Nat → Option GoE.GoErr)
    (config : GoE.RetryConfig) (rnd : Nat → ℚ) (fn : Nat → GoE.FnResult)
    (e : GoE.GoErr)
    (he : (fn 0).err = some e) (hs : (fn 0).statusCode = 0)
    (hctx : (ctx 0).isSome) (hmr : 1 ≤ config.maxRetries) :
    GoE.retryDo ctx config rnd fn = (.error e, 1) := by
  rw [GoE.retryDo, GoE.retryDoAux, he]
  simp only []
  rw [if_neg (by simp [hs])]
  rw [if_neg (by omega)]
  rw [if_pos ⟨hs, hctx⟩]

theorem retryDo_transport_retries (ctx : Nat → Option GoE.GoErr)
    (config : GoE.RetryConfig) (rnd : Nat → ℚ) (fn : Nat → GoE.FnResult)
    (e : GoE.GoErr)
    (he : (fn 0).err = some e) (hs : (fn 0).statusCode = 0)
    (hctx : ctx 0 = Option.none) (hmr : 1 ≤ config.maxRetries) :
    2 ≤ (GoE.retryDo ctx config rnd fn).2 := by
  rw [GoE.retryDo, GoE.retryDoAux, he]
  simp only []
  rw [if_neg (by simp [hs])]
  rw [if_neg (by omega)]
  rw [if_neg (by simp [hctx])]
  rw [hctx]
  have hge := retryDoAux_count_ge ctx config rnd fn config.maxRetries 1 (some e) hmr
  split
  · exact hge
  · exact hge

/-! ## Delay calculator lemmas -/

theorem ts_calculateDelay_hint (attempt : Nat) (config : TS.RetryConfig)
    (hint rnd : ℚ) (hh : 0 < hint) :
    TS.calculateDelay attempt config (some hint) rnd =
      min (hint * 1000) (config.maxDelayMs.getD 30000) := by
  simp only [TS.calculateDelay]
  rw [if_pos hh]

theorem go_calculateDelay_hint (attempt : Nat) (config : GoE.RetryConfig)
    (hint : ℤ) (rnd : ℚ) (hh : 0 < hint) :
    GoE.calculateDelay attempt config hint rnd = min hint config.maxDelay := by
  rw [GoE.calculateDelay, if_pos hh]
  rcases le_or_lt hint config.maxDelay with h | h
  · rw [if_neg (by omega), min_eq_left h]
  · rw [if_pos h, min_eq_right (by omega)]

theorem ts_backoffBase_pos (attempt : Nat) (strategy : BackoffStrategy)
    (base : ℚ) (hb : 0 < base) (hs : strategy ≠ .none) :
    0 < TS.backoffBase attempt strategy base := by
  cases strategy with
  | exponential =>
    simp only [TS.backoffBase]
    positivity
  | linear =>
    simp only [TS.backoffBase]
    positivity
  | none => exact absurd rfl hs

theorem ts_jitter_bounds (d rnd : ℚ) (hd : 0 < d) (hr0 : 0 ≤ rnd) (hr1 : rnd < 1) :
    d ≤ TS.jitteredDelay d rnd ∧ TS.jitteredDelay d rnd < (3 / 2) * d := by
  constructor
  · simp only [TS.jitteredDelay]
    nlinarith
  · simp only [TS.jitteredDelay]
    nlinarith

theorem jsRound_le_int (x : ℚ) (k : ℤ) (h : x ≤ (k : ℚ)) :
    ((TS.jsRound x : ℤ) : ℚ) ≤ (k : ℚ) := by
  have h1 : TS.jsRound x ≤ k := by
    rw [TS.jsRound]
    have h2 : x + 1 / 2 ≤ (k : ℚ) + 1 / 2 := by linarith
    have h3 := Int.floor_le_floor h2
    have h0 : ⌊(1 / 2 : ℚ)⌋ = 0 := by
      rw [Int.floor_eq_zero_iff]
      rw [Set.mem_Ico]
      constructor <;> norm_num
    have h4 : ⌊(k : ℚ) + 1 / 2⌋ = k := by
      rw [add_comm, Int.floor_add_int, h0, zero_add]
    omega
  exact_mod_cast h1

theorem ts_calculateDelay_le_max (attempt : Nat) (config : TS.RetryConfig)
    (rnd : ℚ) (hs : config.backoff ≠ .none) (k : ℤ)
    (hk : config.maxDelayMs.getD 30000 = (k : ℚ)) :
    TS.calculateDelay attempt config Option.none rnd ≤
      config.maxDelayMs.getD 30000 := by
  simp only [TS.calculateDelay]
  cases hcb : config.backoff with
  | none => exact absurd hcb hs
  | exponential =>
    rw [hk]
    exact jsRound_le_int _ k (by rw [← hk]; exact min_le_right _ _)
  | linear =>
    rw [hk]
    exact jsRound_le_int _ k (by rw [← hk]; exact min_le_right _ _)

theorem go_backoffDelay_pos (attempt : Nat) (config : GoE.RetryConfig)
    (hb : 0 < config.baseDelay) :
    0 < GoE.backoffDelay attempt config := by
  rw [GoE.backoffDelay]
  cases config.backoff <;> positivity

theorem go_jitter_bounds (d : ℤ) (rnd : ℚ) (hd : 0 < d)
    (hr0 : 0 ≤ rnd) (hr1 : rnd < 1) :
    d ≤ GoE.goJittered d rnd ∧ ((GoE.goJittered d rnd : ℤ) : ℚ) < (3 / 2) * d := by
  have hx : (0 : ℚ) ≤ rnd * (d : ℚ) * (1 / 2) := by positivity
  have htr : truncQ (rnd * (d : ℚ) * (1 / 2)) = ⌊rnd * (d : ℚ) * (1 / 2)⌋ := by
    rw [truncQ, if_pos hx]
  constructor
  · rw [GoE.goJittered, htr]
    have := Int.floor_nonneg.mpr hx
    omega
  · rw [GoE.goJittered, htr]
    have hdq : (0 : ℚ) < (d : ℚ) := by exact_mod_cast hd
    have h1 : (⌊rnd * (d : ℚ) * (1 / 2)⌋ : ℚ) ≤ rnd * (d : ℚ) * (1 / 2) :=
      Int.floor_le _
    have h2 : rnd * (d : ℚ) * (1 / 2) < (d : ℚ) * (1 / 2) := by
      nlinarith
    push_cast
    linarith

theorem go_calculateDelay_le_max (attempt : Nat) (config : GoE.RetryConfig)
    (rnd : ℚ) (hs : config.backoff ≠ .none) :
    GoE.calculateDelay attempt config 0 rnd ≤ config.maxDelay := by
  rw [GoE.calculateDelay]
  rw [if_neg (by omega)]
  rw [if_neg hs]
  dsimp only
  split
  · omega
  · omega

/-! ## Polling waiter lemmas -/

theorem waitLoop_nonterminal (fetch : Nat → TS.TaskM) (poll timeout : Nat)
    (taskId : Str) (h : ∀ i, TS.isTerminalStatus (fetch i).status = false) :
    ∀ fuel i now, TS.waitLoop fetch poll timeout taskId i now fuel =
      .timedOut ⟨TS.waitMessage taskId timeout, timeout⟩ := by
  intro fuel
  induction fuel with
  | zero => intro i now; rfl
  | succ f ih =>
    intro i now
    rw [TS.waitLoop]
    by_cases hlt : now < timeout
    · rw [if_pos hlt]
      simp only [h i, Bool.false_eq_true, if_false]
      split
      · rfl
      · exact ih (i + 1) _
    · rw [if_neg hlt]

theorem waitForCompletion_nonterminal (fetch : Nat → TS.TaskM)
    (poll timeout : Nat) (taskId : Str)
    (h : ∀ i, TS.isTerminalStatus (fetch i).status = false) :
    TS.waitForCompletion fetch poll timeout taskId =
      .timedOut ⟨TS.waitMessage taskId timeout, timeout⟩ :=
  waitLoop_nonterminal fetch poll timeout taskId h (timeout + 1) 0 0

/-! ## Verifier fail-closed lemmas -/

theorem ts_verify_empty (p sig s : Str) (tol : Option Int) (now : Int)
    (h : p = [] ∨ sig = [] ∨ s = []) :
    TS.verifyWebhookSignature p sig s tol now = false := by
  rw [TS.verifyWebhookSignature, if_pos h]

theorem ts_verify_badHeader (p sig s : Str) (tol : Option Int) (now : Int)
    (h : TS.parseHeader sig = none) :
    TS.verifyWebhookSignature p sig s tol now = false := by
  rw [TS.verifyWebhookSignature]
  by_cases hemp : p = [] ∨ sig = [] ∨ s = []
  · rw [if_pos hemp]
  · rw [if_neg hemp]
    simp only [h]

theorem ts_verify_badTimestamp (p sig s ts es : Str) (tol : Option Int) (now : Int)
    (hp : TS.parseHeader sig = some (ts, es)) (hj : jsParseInt ts = none) :
    TS.verifyWebhookSignature p sig s tol now = false := by
  rw [TS.verifyWebhookSignature]
  by_cases hemp : p = [] ∨ sig = [] ∨ s = []
  · rw [if_pos hemp]
  · rw [if_neg hemp]
    simp only [hp, hj]

/-! ## Idempotency key lemmas -/

theorem hash32_length (x : List Nat) :
    ((hexEncode (sha256 x)).take 32).length = 32 := by
  rw [List.length_take, hexEncode_length, sha256_length]
  rfl

theorem generateIdempotencyKey_eq_formula (ns : Str) (parts : List Str) :
    TS.generateIdempotencyKey ns parts = specIdempotencyKey ns parts 32 := rfl

theorem generateIdempotencyKey_eq_iff (ns ns2 : Str) (parts parts2 : List Str) :
    TS.generateIdempotencyKey ns parts = TS.generateIdempotencyKey ns2 parts2 ↔
      (ns = ns2 ∧
        (hexEncode (sha256 (utf8Encode (TS.joinColon parts)))).take 32 =
          (hexEncode (sha256 (utf8Encode (TS.joinColon parts2)))).take 32) := by
  constructor
  · intro h
    simp only [TS.generateIdempotencyKey] at h
    have hl : (':' :: (hexEncode (sha256 (utf8Encode (TS.joinColon parts)))).take 32).length =
        (':' :: (hexEncode (sha256 (utf8Encode (TS.joinColon parts2)))).take 32).length := by
      simp only [List.length_cons, hash32_length]
    obtain ⟨hns, htl⟩ := List.append_inj' h hl
    refine ⟨hns, ?_⟩
    injection htl
  · rintro ⟨rfl, hh⟩
    simp only [TS.generateIdempotencyKey, hh]

/-- A well-formed header whose digest field `es` need not be hex: the
verifier accepts it whenever the greedy decode of `es` equals the
expected HMAC bytes (and freshness holds). -/
theorem ts_verify_header_digest (p s ts es : Str) (tnum tol now : Int)
    (hp : p ≠ []) (hs : s ≠ []) (hts : ts ≠ []) (hes : es ≠ [])
    (hcomma : ∀ c ∈ ts, c ≠ ',') (hescomma : ∀ c ∈ es, c ≠ ',')
    (hparse : jsParseInt ts = some tnum)
    (hdec : hexDecodeGreedy es =
      hmacSha256 (utf8Encode s) (utf8Encode (ts ++ '.' :: p))) :
    TS.verifyWebhookSignature p ('t' :: '=' :: ts ++ ',' :: 'v' :: '1' :: '=' :: es)
      s (some tol) now = decide (((now - tnum).natAbs : Int) ≤ tol) := by
  rw [TS.verifyWebhookSignature]
  rw [if_neg (by simp [hp, hs])]
  rw [ts_parseHeader_generic ts es hts hes hcomma hescomma]
  simp only [Option.getD_some, hparse]
  rcases le_or_lt ((now - tnum).natAbs : Int) tol with hfresh | hfresh
  · rw [if_neg (not_lt.mpr hfresh)]
    rw [hexDecodeGreedy_encode _ (hmacSha256_lt _ _), hdec]
    rw [if_neg (by simp)]
    simp only [beq_self_eq_true]
    symm
    rw [decide_eq_true_eq]
    exact hfresh
  · rw [if_pos hfresh]
    symm
    rw [decide_eq_false_iff_not]
    omega

/-- If the digest field's greedy decode differs from the expected HMAC
bytes, the TypeScript verifier returns `false` (the provable residue of
the "non-hex digest" clause: a digest is rejected exactly through this
comparison, after `Buffer.from` truncation). -/
theorem ts_verify_digest_mismatch (p sig s ts es : Str) (tol : Option Int)
    (now tnum : Int)
    (hph : TS.parseHeader sig = some (ts, es)) (hj : jsParseInt ts = some tnum)
    (hdec : hexDecodeGreedy es ≠
      hmacSha256 (utf8Encode s) (utf8Encode (ts ++ '.' :: p))) :
    TS.verifyWebhookSignature p sig s tol now = false := by
  rw [TS.verifyWebhookSignature]
  by_cases hemp : p = [] ∨ sig = [] ∨ s = []
  · rw [if_pos hemp]
  · rw [if_neg hemp]
    simp only [hph, hj]
    by_cases hfresh : ((now - tnum).natAbs : Int) > tol.getD 300
    · rw [if_pos hfresh]
    · rw [if_neg hfresh]
      rw [hexDecodeGreedy_encode _ (hmacSha256_lt _ _)]
      split
      · rfl
      · rw [beq_eq_false_iff_ne]
        exact fun h => hdec h.symm

/-- The strict (Go) hex decoder rejects an encoding followed by two
non-hex characters. -/
theorem hexDecodeStrict_encode_gg (bs : List Nat) (h : ∀ b ∈ bs, b < 256) :
    hexDecodeStrict (hexEncode bs ++ 'g' :: 'g' :: []) = none := by
  induction bs with
  | nil => decide
  | cons b r ih =>
    have hb : b < 256 := h b (by simp)
    have h1 : b / 16 < 16 := by omega
    have h2 : b % 16 < 16 := by omega
    simp only [hexEncode, List.cons_append, List.append_eq, hexDecodeStrict,
      hexVal_hexDigitChar _ h1, hexVal_hexDigitChar _ h2,
      ih (fun x hx => h x (by simp [hx]))]

/-- The greedy (Node) hex decoder truncates the same string to the
encoded bytes. -/
theorem hexDecodeGreedy_encode_gg (bs : List Nat) (h : ∀ b ∈ bs, b < 256) :
    hexDecodeGreedy (hexEncode bs ++ 'g' :: 'g' :: []) = bs := by
  rw [hexDecodeGreedy_encode_append bs _ h]
  simp [hexDecodeGreedy, charHexVal?]

/-! # Claim theorems -/

/-- Claim C1: the claim states that `tolerance = 0` disables the freshness
check entirely, so the result never depends on `now - t`.  The Go verifier
satisfies this (it guards the check with `tolerance > 0`), but the
TypeScript verifier runs `age > tolerance` unconditionally: with
`tolerance = 0` a validly signed header for `t = 1000` verifies at
`now = 1000` and is rejected at `now = 1001`, so the result does depend
on the clock.  This theorem evaluates both implementations at that
failing input. -/
theorem claim_C1 :
    TS.verifyWebhookSignature cexPayload
      (TS.constructWebhookSignature cexPayload cexSecret (some 1000) 0)
      cexSecret (some 0) 1000 = true ∧
    TS.verifyWebhookSignature cexPayload
      (TS.constructWebhookSignature cexPayload cexSecret (some 1000) 0)
      cexSecret (some 0) 1001 = false ∧
    GoE.verifyWebhookSignature cexPayload
      (GoE.constructWebhookSignature cexPayload cexSecret 1000 0)
      cexSecret 0 1001 = true := by
  refine ⟨?_, ?_, ?_⟩
  · rw [ts_verify_construct cexPayload cexSecret 1000 0 1000 0
      (by decide) (by decide)]
    decide
  · rw [ts_verify_construct cexPayload cexSecret 1000 0 1001 0
      (by decide) (by decide)]
    decide
  · rw [go_verify_construct cexPayload cexSecret 1000 0 1001 0
      (by decide) (by decide) (by decide) (by decide) (by decide)]
    decide

/-- Claim C2: verifying the constructed header for `(payload, secret, t)`
with the same payload and secret and `tolerance = 300` yields `true`
whenever `|now - t| ≤ 300` and `false` when `|now - t| = 301`
(TypeScript pairing of `constructWebhookSignature` and
`verifyWebhookSignature`). -/
theorem claim_C2 (payload secret : Str) (t now : Int)
    (hp : payload ≠ []) (hs : secret ≠ []) :
    (((now - t).natAbs : Int) ≤ 300 →
      TS.verifyWebhookSignature payload
        (TS.constructWebhookSignature payload secret (some t) t)
        secret (some 300) now = true) ∧
    ((now - t).natAbs = 301 →
      TS.verifyWebhookSignature payload
        (TS.constructWebhookSignature payload secret (some t) t)
        secret (some 300) now = false) := by
  constructor
  · intro hf
    rw [ts_verify_construct payload secret t 300 now t hp hs]
    rw [decide_eq_true_eq]
    exact hf
  · intro hf
    rw [ts_verify_construct payload secret t 300 now t hp hs]
    rw [hf]
    decide

/-- Witness for C2 at the spec's concrete scenario (`t = 1700000000`,
`now = 1700000100`). -/
theorem claim_C2_witness :
    (cexPayload ≠ [] ∧ cexSecret ≠ [] ∧
      (((1700000100 : Int) - 1700000000).natAbs : Int) ≤ 300) ∧
    TS.verifyWebhookSignature cexPayload
      (TS.constructWebhookSignature cexPayload cexSecret (some 1700000000) 1700000000)
      cexSecret (some 300) 1700000100 = true :=
  ⟨⟨by decide, by decide, by decide⟩,
    (claim_C2 cexPayload cexSecret 1700000000 1700000100
      (by decide) (by decide)).1 (by decide)⟩

/-- Claim C10: in the TypeScript verifier, omitting `tolerance` is the
same as passing `300` (for every input), and is not the same as passing
`0` (witnessed by a valid header one second old). -/
theorem claim_C10 :
    (∀ (payload sig secret : Str) (now : Int),
      TS.verifyWebhookSignature payload sig secret Option.none now =
        TS.verifyWebhookSignature payload sig secret (some 300) now) ∧
    (∃ (payload sig secret : Str) (now : Int),
      TS.verifyWebhookSignature payload sig secret Option.none now ≠
        TS.verifyWebhookSignature payload sig secret (some 0) now) := by
  constructor
  · intro payload sig secret now
    rfl
  · refine ⟨cexPayload,
      TS.constructWebhookSignature cexPayload cexSecret (some 1000) 0,
      cexSecret, 1001, ?_⟩
    have h300 : TS.verifyWebhookSignature cexPayload
        (TS.constructWebhookSignature cexPayload cexSecret (some 1000) 0)
        cexSecret Option.none 1001 =
      TS.verifyWebhookSignature cexPayload
        (TS.constructWebhookSignature cexPayload cexSecret (some 1000) 0)
        cexSecret (some 300) 1001 := rfl
    rw [h300]
    rw [ts_verify_construct cexPayload cexSecret 1000 300 1001 0
      (by decide) (by decide)]
    rw [ts_verify_construct cexPayload cexSecret 1000 0 1001 0
      (by decide) (by decide)]
    decide

/-- Claim C3: the retryable-status set is exactly `{429} ∪ [500, 599]`
in both SDKs; a non-retryable numeric status stops the Go executor after
exactly one attempt (and the TypeScript executor stops as soon as the
attempt is marked non-retryable); an outcome with no numeric status is
retried unless the cancellation context has already fired, in which case
the executor returns after the single attempt. -/
theorem claim_C3 :
    (∀ s : Nat, TS.isRetryableStatusCode s = true ↔
      (s = 429 ∨ (500 ≤ s ∧ s ≤ 599))) ∧
    (∀ s : Nat, GoE.isRetryableStatusCode s = TS.isRetryableStatusCode s) ∧
    (∀ (α : Type) (fn : Nat → TS.AttemptResult α) (config : TS.RetryConfig),
      (fn 0).shouldRetry = false → (TS.executeWithRetry fn config).2 = 1) ∧
    (∀ (ctx : Nat → Option GoE.GoErr) (config : GoE.RetryConfig)
        (rnd : Nat → ℚ) (fn : Nat → GoE.FnResult) (e : GoE.GoErr),
      (fn 0).err = some e → 0 < (fn 0).statusCode →
      GoE.isRetryableStatusCode (fn 0).statusCode = false →
      GoE.retryDo ctx config rnd fn = (.error e, 1)) ∧
    (∀ (ctx : Nat → Option GoE.GoErr) (config : GoE.RetryConfig)
        (rnd : Nat → ℚ) (fn : Nat → GoE.FnResult) (e : GoE.GoErr),
      (fn 0).err = some e → (fn 0).statusCode = 0 →
      (ctx 0).isSome → 1 ≤ config.maxRetries →
      GoE.retryDo ctx config rnd fn = (.error e, 1)) ∧
    (∀ (ctx : Nat → Option GoE.GoErr) (config : GoE.RetryConfig)
        (rnd : Nat → ℚ) (fn : Nat → GoE.FnResult) (e : GoE.GoErr),
      (fn 0).err = some e → (fn 0).statusCode = 0 →
      ctx 0 = Option.none → 1 ≤ config.maxRetries →
      2 ≤ (GoE.retryDo ctx config rnd fn).2) := by
  refine ⟨?_, ?_, ?_, ?_, ?_, ?_⟩
  · intro s
    simp [TS.isRetryableStatusCode]
  · intro s
    rfl
  · intro α fn config h
    exact executeWithRetry_stop fn config h
  · intro ctx config rnd fn e he hs hnr
    exact retryDo_terminal ctx config rnd fn e he hs hnr
  · intro ctx config rnd fn e he hs hctx hmr
    exact retryDo_transport_cancelled ctx config rnd fn e he hs hctx hmr
  · intro ctx config rnd fn e he hs hctx hmr
    exact retryDo_transport_retries ctx config rnd fn e he hs hctx hmr

/-- Witness for C3: a 404 attempt stops the Go executor after one
attempt; a transport fault with an already-cancelled context also stops
after one attempt. -/
theorem claim_C3_witness :
    ((fn404 0).err = some err1 ∧ 0 < (fn404 0).statusCode ∧
      GoE.isRetryableStatusCode (fn404 0).statusCode = false ∧
      (fnNet 0).err = some err1 ∧ (fnNet 0).statusCode = 0 ∧
      (ctxCancelled 0).isSome ∧ 1 ≤ cfg1.maxRetries) ∧
    GoE.retryDo ctxNone cfg1 rnd0 fn404 = (.error err1, 1) ∧
    GoE.retryDo ctxCancelled cfg1 rnd0 fnNet = (.error err1, 1) :=
  ⟨⟨rfl, by decide, by decide, rfl, rfl, rfl, by decide⟩,
    claim_C3.2.2.2.1 ctxNone cfg1 rnd0 fn404 err1 rfl (by decide) (by decide),
    claim_C3.2.2.2.2.1 ctxCancelled cfg1 rnd0 fnNet err1 rfl rfl rfl (by decide)⟩

/-- Claim C4: with `maxRetries = N`, both executors invoke the attempt
operation at most `N + 1` times, exactly `N + 1` times when every
attempt is a retryable failure, and exactly once when `N = 0`. -/
theorem claim_C4 (α : Type) (fn : Nat → TS.AttemptResult α)
    (config : TS.RetryConfig) (ctx : Nat → Option GoE.GoErr)
    (gcfg : GoE.RetryConfig) (rnd : Nat → ℚ) (gfn : Nat → GoE.FnResult) :
    ((TS.executeWithRetry fn config).2 ≤ config.maxRetries + 1) ∧
    ((∀ i, (fn i).shouldRetry = true) →
      (TS.executeWithRetry fn config).2 = config.maxRetries + 1) ∧
    (config.maxRetries = 0 → (TS.executeWithRetry fn config).2 = 1) ∧
    ((GoE.retryDo ctx gcfg rnd gfn).2 ≤ gcfg.maxRetries + 1) ∧
    ((∀ i, (gfn i).err.isSome ∧ ctx i = Option.none ∧
        ((gfn i).statusCode = 0 ∨
          GoE.isRetryableStatusCode (gfn i).statusCode = true)) →
      (GoE.retryDo ctx gcfg rnd gfn).2 = gcfg.maxRetries + 1) ∧
    (gcfg.maxRetries = 0 → (GoE.retryDo ctx gcfg rnd gfn).2 = 1) := by
  refine ⟨executeWithRetry_count_le fn config, ?_, ?_, retryDo_count_le ctx gcfg rnd gfn, ?_, ?_⟩
  · intro h
    exact executeWithRetry_count_exact fn config h
  · intro h
    exact executeWithRetry_zero fn config h
  · intro h
    exact retryDo_count_exact ctx gcfg rnd gfn h
  · intro h
    exact retryDo_zero ctx gcfg rnd gfn h

/-- Witness for C4: an always-retryable TypeScript attempt with
`maxRetries = 2` runs exactly 3 times; an always-503 Go attempt with
`maxRetries = 3` runs exactly 4 times. -/
theorem claim_C4_witness :
    ((∀ i, (tsFnRetry i).shouldRetry = true) ∧
      (∀ i, (fn503 i).err.isSome ∧ ctxNone i = Option.none ∧
        ((fn503 i).statusCode = 0 ∨
          GoE.isRetryableStatusCode (fn503 i).statusCode = true))) ∧
    (TS.executeWithRetry tsFnRetry (tsCfg 2)).2 = 3 ∧
    (GoE.retryDo ctxNone cfg1 rnd0 fn503).2 = 4 :=
  ⟨⟨fun _ => rfl, fun _ => ⟨rfl, rfl, Or.inr rfl⟩⟩,
    (claim_C4 Nat tsFnRetry (tsCfg 2) ctxNone cfg1 rnd0 fn503).2.1
      (fun _ => rfl),
    (claim_C4 Nat tsFnRetry (tsCfg 2) ctxNone cfg1 rnd0 fn503).2.2.2.2.1
      (fun _ => ⟨rfl, rfl, Or.inr rfl⟩)⟩

/-- Claim C5: a positive server-supplied retry hint short-circuits the
delay computation in both SDKs to exactly `min(hint, maxDelay)`, for
every attempt index, backoff strategy and jitter sample; in particular a
2 s hint under a 30 s cap yields exactly 2 s (2000 ms) and a 40 s hint
clamps to 30 s (30000 ms). -/
theorem claim_C5 (attempt : Nat) (config : TS.RetryConfig) (hint rnd : ℚ)
    (gconfig : GoE.RetryConfig) (ghint : ℤ) (grnd : ℚ)
    (hh : 0 < hint) (hgh : 0 < ghint) :
    TS.calculateDelay attempt config (some hint) rnd =
      min (hint * 1000) (config.maxDelayMs.getD 30000) ∧
    GoE.calculateDelay attempt gconfig ghint grnd = min ghint gconfig.maxDelay ∧
    (∀ (a : Nat) (r : ℚ), TS.calculateDelay a tsCfgD (some 2) r = 2000) ∧
    (∀ (a : Nat) (r : ℚ), TS.calculateDelay a tsCfgD (some 40) r = 30000) := by
  refine ⟨ts_calculateDelay_hint attempt config hint rnd hh,
    go_calculateDelay_hint attempt gconfig ghint grnd hgh, ?_, ?_⟩
  · intro a r
    rw [ts_calculateDelay_hint a tsCfgD 2 r (by norm_num)]
    norm_num [tsCfgD]
  · intro a r
    rw [ts_calculateDelay_hint a tsCfgD 40 r (by norm_num)]
    norm_num [tsCfgD]

/-- Witness for C5 at `hint = 2`, `maxDelay = 30000 ms` (TS) and
`hint = 2`, `maxDelay = 30000` (Go). -/
theorem claim_C5_witness :
    ((0 : ℚ) < 2 ∧ (0 : ℤ) < 2) ∧
    TS.calculateDelay 0 tsCfgD (some 2) 0 =
      min ((2 : ℚ) * 1000) (tsCfgD.maxDelayMs.getD 30000) ∧
    GoE.calculateDelay 0 cfg1 2 0 = min 2 cfg1.maxDelay :=
  ⟨⟨by norm_num, by norm_num⟩,
    (claim_C5 0 tsCfgD 2 0 cfg1 2 0 (by norm_num) (by norm_num)).1,
    (claim_C5 0 tsCfgD 2 0 cfg1 2 0 (by norm_num) (by norm_num)).2.1⟩

/-- Counterexample for C6 as stated: with `baseDelayMs = 0` (a
configuration with `backoff ≠ none`) the pre-jitter value `D` is `0`,
the interval `[D, 1.5·D)` is empty, and the post-jitter result `0` does
not lie in it, even for the jitter sample `r = 0 ∈ [0, 1)`. -/
theorem claim_C6_cex :
    TS.calculateDelay 0 tsCfg0 Option.none 0 = 0 ∧
    ¬(TS.backoffBase 0 .exponential (tsCfg0.baseDelayMs.getD 1000) ≤
        TS.jitteredDelay
          (TS.backoffBase 0 .exponential (tsCfg0.baseDelayMs.getD 1000)) 0 ∧
      TS.jitteredDelay
          (TS.backoffBase 0 .exponential (tsCfg0.baseDelayMs.getD 1000)) 0 <
        (3 / 2) * TS.backoffBase 0 .exponential (tsCfg0.baseDelayMs.getD 1000)) := by
  constructor
  · norm_num [TS.calculateDelay, tsCfg0, TS.backoffBase, TS.jitteredDelay, TS.jsRound]
  · norm_num [TS.backoffBase, TS.jitteredDelay, tsCfg0]

/-- Claim C6 (amended): for `backoff ≠ none`, no server hint and a jitter
sample in `[0, 1)`, the post-jitter value lies in `[D, 1.5·D)` provided
the base delay is positive (with `baseDelay = 0` the interval is empty);
and the returned delay never exceeds `maxDelay` — unconditionally in Go,
and in TypeScript provided `maxDelayMs` is a whole number of
milliseconds (`Math.round` could exceed a fractional cap by up to one
half). -/
theorem claim_C6 (attempt : Nat) (config : TS.RetryConfig) (rnd : ℚ)
    (gconfig : GoE.RetryConfig) (grnd : ℚ)
    (hr0 : 0 ≤ rnd) (hr1 : rnd < 1) (hs : config.backoff ≠ .none)
    (hgr0 : 0 ≤ grnd) (hgr1 : grnd < 1) (hgs : gconfig.backoff ≠ .none) :
    (0 < config.baseDelayMs.getD 1000 →
      (TS.backoffBase attempt config.backoff (config.baseDelayMs.getD 1000) ≤
        TS.jitteredDelay
          (TS.backoffBase attempt config.backoff (config.baseDelayMs.getD 1000)) rnd ∧
       TS.jitteredDelay
          (TS.backoffBase attempt config.backoff (config.baseDelayMs.getD 1000)) rnd <
        (3 / 2) *
          TS.backoffBase attempt config.backoff (config.baseDelayMs.getD 1000))) ∧
    ((∃ k : ℤ, config.maxDelayMs.getD 30000 = (k : ℚ)) →
      TS.calculateDelay attempt config Option.none rnd ≤
        config.maxDelayMs.getD 30000) ∧
    (0 < gconfig.baseDelay →
      (GoE.backoffDelay attempt gconfig ≤
        GoE.goJittered (GoE.backoffDelay attempt gconfig) grnd ∧
       ((GoE.goJittered (GoE.backoffDelay attempt gconfig) grnd : ℤ) : ℚ) <
        (3 / 2) * ((GoE.backoffDelay attempt gconfig : ℤ) : ℚ))) ∧
    GoE.calculateDelay attempt gconfig 0 grnd ≤ gconfig.maxDelay := by
  refine ⟨?_, ?_, ?_, go_calculateDelay_le_max attempt gconfig grnd hgs⟩
  · intro hb
    exact ts_jitter_bounds _ rnd
      (ts_backoffBase_pos attempt config.backoff _ hb hs) hr0 hr1
  · rintro ⟨k, hk⟩
    exact ts_calculateDelay_le_max attempt config rnd hs k hk
  · intro hb
    exact go_jitter_bounds _ grnd (go_backoffDelay_pos attempt gconfig hb) hgr0 hgr1

/-- Witness for C6 with the default configurations, `rnd = 0`. -/
theorem claim_C6_witness :
    ((0 : ℚ) ≤ 0 ∧ (0 : ℚ) < 1 ∧ tsCfgD.backoff ≠ BackoffStrategy.none ∧
      cfg1.backoff ≠ BackoffStrategy.none ∧
      tsCfgD.maxDelayMs.getD 30000 = ((30000 : ℤ) : ℚ) ∧
      (0 : ℤ) < cfg1.baseDelay) ∧
    TS.calculateDelay 0 tsCfgD Option.none 0 ≤ tsCfgD.maxDelayMs.getD 30000 ∧
    GoE.calculateDelay 0 cfg1 0 0 ≤ cfg1.maxDelay :=
  ⟨⟨by norm_num, by norm_num, by decide, by decide,
      by norm_num [tsCfgD], by norm_num [cfg1]⟩,
    (claim_C6 0 tsCfgD 0 cfg1 0 (by norm_num) (by norm_num) (by decide)
      (by norm_num) (by norm_num) (by decide)).2.1 ⟨30000, by norm_num [tsCfgD]⟩,
    (claim_C6 0 tsCfgD 0 cfg1 0 (by norm_num) (by norm_num) (by decide)
      (by norm_num) (by norm_num) (by decide)).2.2.2⟩

/-- Counterexample for C7 as stated: two runs whose schedules report
different non-terminal statuses (`posted` vs `submitted`) until the
deadline produce *identical* timeout failures, so the failure cannot
carry the last known non-terminal status; the failure carries only the
message and the configured `timeoutMs`. -/
theorem claim_C7_cex :
    TS.waitForCompletion (fetchConst .posted) 2 3 ['a'] =
      TS.waitForCompletion (fetchConst .submitted) 2 3 ['a'] ∧
    TS.TaskStatus.posted ≠ TS.TaskStatus.submitted ∧
    TS.waitForCompletion (fetchConst .posted) 2 3 ['a'] =
      .timedOut ⟨TS.waitMessage ['a'] 3, 3⟩ := by
  refine ⟨?_, by decide, ?_⟩
  · rw [waitForCompletion_nonterminal (fetchConst .posted) 2 3 ['a'] (fun _ => rfl)]
    rw [waitForCompletion_nonterminal (fetchConst .submitted) 2 3 ['a'] (fun _ => rfl)]
  · exact waitForCompletion_nonterminal (fetchConst .posted) 2 3 ['a'] (fun _ => rfl)

/-- Claim C7 (amended): whenever every fetched status is non-terminal,
`waitForCompletion` returns a timeout failure carrying the configured
timeout (which equals the elapsed time at the deadline) and a message
built from the task id and that timeout — but not the last observed
status. -/
theorem claim_C7 (fetch : Nat → TS.TaskM) (poll timeout : Nat) (taskId : Str)
    (h : ∀ i, TS.isTerminalStatus (fetch i).status = false) :
    TS.waitForCompletion fetch poll timeout taskId =
      .timedOut ⟨TS.waitMessage taskId timeout, timeout⟩ :=
  waitForCompletion_nonterminal fetch poll timeout taskId h

/-- Witness for C7 with a constant `posted` schedule. -/
theorem claim_C7_witness :
    (∀ i, TS.isTerminalStatus ((fetchConst .posted) i).status = false) ∧
    TS.waitForCompletion (fetchConst .posted) 2 600000 ['a'] =
      .timedOut ⟨TS.waitMessage ['a'] 600000, 600000⟩ :=
  ⟨fun _ => rfl, claim_C7 (fetchConst .posted) 2 600000 ['a'] (fun _ => rfl)⟩

/-- Counterexample for C8 as stated, refuting two of its clauses in the
TypeScript verifier.  (1) Non-integer timestamp: the header
`t=1000.5,v1=<digest>` has a timestamp that is not an integer
(`decimalIntegerStr` is false), yet verification returns `true` at
`now = 1000`: `Number.parseInt` accepts the integer prefix `1000` for
the freshness check while the raw string `1000.5` is what gets signed.
(2) Non-hex digest: the header `t=1000,v1=<correct 64-hex digest>gg`
has a digest containing the non-hex character `g`, yet the TypeScript
verifier returns `true` — `Buffer.from(·, "hex")` truncates at the
first non-hex character, leaving exactly the valid 32 bytes — while the
Go verifier's strict `hex.DecodeString` rejects the same header. -/
theorem claim_C8_cex :
    (decimalIntegerStr c8TsStr = false ∧
      TS.verifyWebhookSignature cexPayload c8Header cexSecret (some 300) 1000 = true) ∧
    ('g' ∈ c8bDigest ∧ charHexVal? 'g' = none ∧
      TS.verifyWebhookSignature cexPayload c8bHeader cexSecret (some 300) 1000 = true ∧
      GoE.verifyWebhookSignature cexPayload c8bHeader cexSecret 300 1000 = false) := by
  have hmlt := hmacSha256_lt (utf8Encode cexSecret)
    (utf8Encode (c8bTsStr ++ '.' :: cexPayload))
  have hescomma : ∀ c ∈ c8bDigest, c ≠ ',' := by
    intro c hc
    rw [c8bDigest] at hc
    rcases List.mem_append.mp hc with hc | hc
    · exact hexEncode_ne_comma _ c hc
    · rcases List.mem_cons.mp hc with rfl | hc
      · decide
      · rcases List.mem_cons.mp hc with rfl | hc
        · decide
        · simp at hc
  have hesne : c8bDigest ≠ [] := by
    rw [c8bDigest]
    simp
  refine ⟨⟨by decide, ?_⟩, ⟨by rw [c8bDigest]; simp, by decide, ?_, ?_⟩⟩
  · have hh : c8Header =
        't' :: '=' :: c8TsStr ++ ',' :: 'v' :: '1' :: '=' ::
          hexEncode (hmacSha256 (utf8Encode cexSecret)
            (utf8Encode (c8TsStr ++ '.' :: cexPayload))) := rfl
    rw [hh]
    rw [ts_verify_valid_header cexPayload cexSecret c8TsStr 1000 300 1000
      (by decide) (by decide) (by decide) (by decide) (by decide)]
    decide
  · have hh : c8bHeader =
        't' :: '=' :: c8bTsStr ++ ',' :: 'v' :: '1' :: '=' :: c8bDigest := rfl
    rw [hh]
    rw [ts_verify_header_digest cexPayload cexSecret c8bTsStr c8bDigest 1000 300 1000
      (by decide) (by decide) (by decide) hesne (by decide) hescomma (by decide)
      (hexDecodeGreedy_encode_gg _ hmlt)]
    decide
  · have hh : c8bHeader =
        't' :: '=' :: c8bTsStr ++ ',' :: 'v' :: '1' :: '=' :: c8bDigest := rfl
    rw [GoE.verifyWebhookSignature]
    rw [if_neg (by simp [cexPayload, cexSecret, c8bHeader])]
    rw [hh, go_parseHeader_generic c8bTsStr c8bDigest (by decide) hescomma]
    simp only []
    rw [if_neg (by simp [hesne]; decide)]
    simp only [show goParseInt64 c8bTsStr = some 1000 from by decide]
    rw [if_neg (by decide)]
    have hnone : hexDecodeStrict c8bDigest = none :=
      hexDecodeStrict_encode_gg _ hmlt
    simp only [hnone]

/-- Claim C8 (amended): the TypeScript verifier is total and fail-closed
— its only outputs are `true` and `false`; it returns `false` for every
input with an empty payload, signature header, or secret, for every
header missing a well-formed `t=`/`v1=` segment, for every timestamp on
which `Number.parseInt` fails (no leading integer digits after optional
whitespace and sign), and for every digest whose greedy hex decode
(Node's `Buffer.from` truncates at the first non-hex character) differs
from the expected 32-byte HMAC.  Two clauses of the original are false:
a non-integer timestamp such as `1000.5` is accepted via its integer
prefix, and a non-hex digest consisting of the correct 64 hex
characters followed by non-hex garbage is truncated and accepted — see
the counterexample. -/
theorem claim_C8 (p sig s : Str) (tol : Option Int) (now : Int) :
    (p = [] ∨ sig = [] ∨ s = [] →
      TS.verifyWebhookSignature p sig s tol now = false) ∧
    (TS.parseHeader sig = none →
      TS.verifyWebhookSignature p sig s tol now = false) ∧
    (∀ ts es, TS.parseHeader sig = some (ts, es) → jsParseInt ts = none →
      TS.verifyWebhookSignature p sig s tol now = false) ∧
    (∀ ts es tnum, TS.parseHeader sig = some (ts, es) →
      jsParseInt ts = some tnum →
      hexDecodeGreedy es ≠
        hmacSha256 (utf8Encode s) (utf8Encode (ts ++ '.' :: p)) →
      TS.verifyWebhookSignature p sig s tol now = false) ∧
    (TS.verifyWebhookSignature p sig s tol now = true ∨
      TS.verifyWebhookSignature p sig s tol now = false) := by
  refine ⟨?_, ?_, ?_, ?_, ?_⟩
  · intro h
    exact ts_verify_empty p sig s tol now h
  · intro h
    exact ts_verify_badHeader p sig s tol now h
  · intro ts es hph hj
    exact ts_verify_badTimestamp p sig s ts es tol now hph hj
  · intro ts es tnum hph hj hdec
    exact ts_verify_digest_mismatch p sig s ts es tol now tnum hph hj hdec
  · rcases Bool.eq_false_or_eq_true (TS.verifyWebhookSignature p sig s tol now)
      with h | h
    · exact Or.inl h
    · exact Or.inr h

/-- Witness for C8: a header with no `t=`/`v1=` segments is rejected,
and a header `t=1,v1=zz` whose digest decodes to no bytes at all is
rejected through the digest-mismatch clause. -/
theorem claim_C8_witness :
    (TS.parseHeader ['z'] = none ∧
      TS.parseHeader
        ('t' :: '=' :: '1' :: ',' :: 'v' :: '1' :: '=' :: 'z' :: 'z' :: []) =
        some (['1'], ['z', 'z']) ∧
      jsParseInt ['1'] = some 1 ∧
      hexDecodeGreedy ['z', 'z'] ≠
        hmacSha256 (utf8Encode ['k']) (utf8Encode (['1'] ++ '.' :: ['x']))) ∧
    TS.verifyWebhookSignature ['x'] ['z'] ['k'] (some 300) 0 = false ∧
    TS.verifyWebhookSignature ['x']
      ('t' :: '=' :: '1' :: ',' :: 'v' :: '1' :: '=' :: 'z' :: 'z' :: [])
      ['k'] (some 300) 0 = false :=
  ⟨⟨by decide, by decide, by decide,
      fun h => absurd (congrArg List.length h)
        (by rw [hmacSha256_length]; decide)⟩,
    (claim_C8 ['x'] ['z'] ['k'] (some 300) 0).2.1 (by decide),
    (claim_C8 ['x']
        ('t' :: '=' :: '1' :: ',' :: 'v' :: '1' :: '=' :: 'z' :: 'z' :: [])
        ['k'] (some 300) 0).2.2.2.1 ['1'] ['z', 'z'] 1 (by decide) (by decide)
      (fun h => absurd (congrArg List.length h)
        (by rw [hmacSha256_length]; decide))⟩

/-- Claim C9: the idempotency-key helper computes exactly the spec's
formula `namespace + ":" + hex(SHA-256(join(parts, ":")))[:32]`; being a
pure function of `(namespace, parts)` it is deterministic; and two keys
are equal precisely when the namespaces are equal and the truncated
digests collide, so distinct inputs yield distinct keys unless truncated
SHA-256 collides (the "overwhelming probability" clause is exactly
SHA-256 collision resistance, which is outside the embedding). -/
theorem claim_C9 (ns ns2 : Str) (parts parts2 : List Str) :
    TS.generateIdempotencyKey ns parts = specIdempotencyKey ns parts 32 ∧
    (TS.generateIdempotencyKey ns parts = TS.generateIdempotencyKey ns2 parts2 ↔
      (ns = ns2 ∧
        (hexEncode (sha256 (utf8Encode (TS.joinColon parts)))).take 32 =
          (hexEncode (sha256 (utf8Encode (TS.joinColon parts2)))).take 32)) :=
  ⟨generateIdempotencyKey_eq_formula ns parts,
    generateIdempotencyKey_eq_iff ns ns2 parts parts2⟩
